import Mathlib

/-!
Verification of the MokhberAi pipeline scripts (`main3.py`, `main5.py`,
`Pods.py`) against their natural-language specification.

The three Python scripts are shallowly embedded: every network-facing
collaborator (feed parser, page scrapers, AI provider, Telegram transport)
is an explicit parameter of the model, since each of those functions in the
source catches its own errors and returns data (`None` / `[]`) rather than
raising.  Mutable state (the `posted_links` set, the history files) is
threaded explicitly, and the observable actions of a run (group visited,
candidate considered, AI provider invoked, send attempted, history
persisted) are recorded as an event trace.
-/

namespace MokhberAi

/-- Observable actions of a run, in order of occurrence. -/
inductive Ev where
  /-- a source group's processing starts (the `--- Checking ... ---` print) -/
  | group (name : String)
  /-- a candidate passed the not-yet-posted check and is taken up -/
  | consider (id : String)
  /-- the AI provider is actually invoked (the length guard passed) -/
  | aiCall
  /-- one of the `send_*_telegram` functions is entered -/
  | sendCall
  /-- a network send is performed; `ok` is the transport's reported outcome -/
  | publish (ok : Bool)
  /-- the posted-links history is written back to durable storage -/
  | save
deriving DecidableEq, Repr

/-! ## Python string helpers

`str.strip()` and file line iteration, modelled on `List Char` so that the
round-trip proofs can proceed by structural induction. -/

/-- The characters removed by Python's default `str.strip()`. -/
def isPyWS (c : Char) : Bool :=
  c = ' ' || c = '\t' || c = '\n' || c = '\r' || c = '\x0b' || c = '\x0c'

/-- Python `str.strip()` on the character list of a string. -/
def pyStrip (l : List Char) : List Char :=
  ((l.dropWhile isPyWS).reverse.dropWhile isPyWS).reverse

/-- Universal-newline translation, applied by Python's text-mode reader
before the caller sees the data (`open` with the default `newline=None`):
`'\r\n'` and a lone `'\r'` both become `'\n'`. -/
def pyNewlineTranslate : List Char → List Char
  | [] => []
  | [c] => if c = '\r' then ['\n'] else [c]
  | c :: c2 :: cs =>
    if c = '\r' then
      if c2 = '\n' then '\n' :: pyNewlineTranslate cs
      else '\n' :: pyNewlineTranslate (c2 :: cs)
    else c :: pyNewlineTranslate (c2 :: cs)

/-- After newline translation, iterating a Python text file yields maximal
`'\n'`-free chunks; a chunk before a `'\n'` is one line, and a final chunk
without a terminating newline is still yielded (an empty trailing chunk is
not).  `acc` holds the current line reversed. -/
def pyLinesAux : List Char → List Char → List (List Char)
  | [], acc => if acc.isEmpty then [] else [acc.reverse]
  | c :: cs, acc =>
    if c = '\n' then acc.reverse :: pyLinesAux cs [] else pyLinesAux cs (c :: acc)

/-- The lines of a file's content, as Python's text-mode line iteration
yields them: universal-newline translation first, then splitting (without
the `'\n'` terminators, which `strip()` would discard anyway). -/
def pyLines (s : String) : List (List Char) :=
  pyLinesAux (pyNewlineTranslate s.data) []

/-- Python truthiness of an optional string: `None` and `""` are falsy. -/
def pyTruthyOptStr : Option String → Bool
  | none => false
  | some s => !s.isEmpty

/-! ## Sorting identifiers

Python's `sorted(links)` compares strings code point by code point.  The
comparison is given as a structurally recursive boolean so that concrete
runs evaluate inside the kernel. -/

/-- Code-point lexicographic `≤` on character lists. -/
def lexLe : List Char → List Char → Bool
  | [], _ => true
  | _ :: _, [] => false
  | a :: as, b :: bs =>
    if a < b then true else if b < a then false else lexLe as bs

/-- Python's `≤` on identifier strings. -/
def strLe (a b : String) : Prop := lexLe a.data b.data = true

instance : DecidableRel strLe := fun a b => by
  unfold strLe; infer_instance

theorem lexLe_refl (l : List Char) : lexLe l l = true := by
  induction l with
  | nil => rfl
  | cons a as ih => simp [lexLe, lt_irrefl, ih]

theorem lexLe_total (a b : List Char) : lexLe a b = true ∨ lexLe b a = true := by
  induction a generalizing b with
  | nil => exact Or.inl rfl
  | cons x xs ih =>
    cases b with
    | nil => exact Or.inr rfl
    | cons y ys =>
      rcases lt_trichotomy x y with h | h | h
      · exact Or.inl (by simp [lexLe, h])
      · subst h
        rcases ih ys with h2 | h2
        · exact Or.inl (by simp [lexLe, lt_irrefl, h2])
        · exact Or.inr (by simp [lexLe, lt_irrefl, h2])
      · exact Or.inr (by simp [lexLe, h])

theorem lexLe_trans {a b c : List Char} (hab : lexLe a b = true)
    (hbc : lexLe b c = true) : lexLe a c = true := by
  induction a generalizing b c with
  | nil => rfl
  | cons x xs ih =>
    cases b with
    | nil => simp [lexLe] at hab
    | cons y ys =>
      cases c with
      | nil => simp [lexLe] at hbc
      | cons z zs =>
        simp only [lexLe] at hab hbc ⊢
        rcases lt_trichotomy x y with hxy | hxy | hxy
        · rcases lt_trichotomy y z with hyz | hyz | hyz
          · simp [lt_trans hxy hyz]
          · subst hyz; simp [hxy]
          · simp [hyz, not_lt_of_gt hyz] at hbc
        · subst hxy
          rcases lt_trichotomy x z with hyz | hyz | hyz
          · simp [hyz]
          · subst hyz
            simp only [lt_irrefl, if_false] at hab hbc ⊢
            exact ih hab hbc
          · simp [hyz, not_lt_of_gt hyz] at hbc
        · simp [hxy, not_lt_of_gt hxy] at hab

theorem lexLe_antisymm {a b : List Char} (hab : lexLe a b = true)
    (hba : lexLe b a = true) : a = b := by
  induction a generalizing b with
  | nil =>
    cases b with
    | nil => rfl
    | cons y ys => simp [lexLe] at hba
  | cons x xs ih =>
    cases b with
    | nil => simp [lexLe] at hab
    | cons y ys =>
      simp only [lexLe] at hab hba
      rcases lt_trichotomy x y with hxy | hxy | hxy
      · simp [hxy, not_lt_of_gt hxy] at hba
      · subst hxy
        simp only [lt_irrefl, if_false] at hab hba
        exact congrArg (x :: ·) (ih hab hba)
      · simp [hxy, not_lt_of_gt hxy] at hab

instance : IsTrans String strLe :=
  ⟨fun _ _ _ hab hbc => lexLe_trans hab hbc⟩

instance : IsAntisymm String strLe :=
  ⟨fun a b hab hba => by
    cases a; cases b
    exact congrArg String.mk (lexLe_antisymm hab hba)⟩

instance : IsTotal String strLe :=
  ⟨fun a b => lexLe_total a.data b.data⟩

/-- The sorted enumeration of an identifier set, `sorted(links)`. -/
def sortedLinks (s : Finset String) : List String :=
  Quot.liftOn s.val (fun l => l.insertionSort strLe)
    (fun l₁ l₂ h =>
      List.eq_of_perm_of_sorted
        ((l₁.perm_insertionSort strLe).trans
          (h.trans (l₂.perm_insertionSort strLe).symm))
        (l₁.sorted_insertionSort strLe) (l₂.sorted_insertionSort strLe))

/-- `load_posted_links`: a missing file (`none`) loads as the empty set;
otherwise each line of the content is stripped and collected into a set. -/
def load_posted_links (file : Option String) : Finset String :=
  match file with
  | none => ∅
  | some content => ((pyLines content).map (fun l => String.mk (pyStrip l))).toFinset

/-- `save_posted_links`: `for link in sorted(links): f.write(link + '\n')`.
The resulting file content, built at the character level. -/
def save_posted_links (links : Finset String) : String :=
  String.mk (((sortedLinks links).map (fun l => l.data ++ ['\n'])).flatten)

/-! ## AI analysis entry points

The structured summary returned by the provider is modelled as a string
dictionary (`ai_data.get(key, default)` in the source).  The provider call
(`_get_analysis_from_gemini` / `_get_analysis_from_groq`) is a black box
`String → Option AiData`: it receives the prompt and returns the parsed JSON
or `None` on any communication/parsing error.  Each entry point returns the
analysis result together with a flag recording whether the provider was
actually invoked. -/

/-- The parsed JSON object returned by the AI provider (values flattened to
strings; no claim inspects their structure). -/
def AiData := List (String × String)

instance : DecidableEq AiData := by
  unfold AiData; infer_instance

/-- Python `ai_data.get(key, default)`. -/
def AiData.get (d : AiData) (k dflt : String) : String :=
  (((d : List (String × String)).find? (fun p => p.1 = k)).map (·.2)).getD dflt

/-- The provider selected in the script configuration (`AI_PROVIDER`). -/
def AI_PROVIDER : String := "gemini"

/-- Dispatch on `AI_PROVIDER`: both known providers forward the prompt to the
black-box call; an unknown provider name returns `None` without calling. -/
def aiDispatch (provider : String → Option AiData) (prompt : String) :
    Option AiData × Bool :=
  if AI_PROVIDER = "gemini" then (provider prompt, true)
  else if AI_PROVIDER = "groq" then (provider prompt, true)
  else (none, false)

/-- `get_ai_paper_analysis` (main3.py/main5.py): guard
`if not text_content or len(text_content) < 100: return None`, then dispatch
with the paper prompt built over the first 15000 characters. -/
def get_ai_paper_analysis (provider : String → Option AiData)
    (text_content : Option String) : Option AiData × Bool :=
  match text_content with
  | none => (none, false)
  | some s =>
    if s.isEmpty || s.length < 100 then (none, false)
    else aiDispatch provider ("PAPER_ANALYSIS:" ++ s.take 15000)

/-- `get_ai_news_analysis` (main3.py/main5.py): guard
`if not text_content or len(text_content) < 50: return None`. -/
def get_ai_news_analysis (provider : String → Option AiData)
    (text_content : Option String) : Option AiData × Bool :=
  match text_content with
  | none => (none, false)
  | some s =>
    if s.isEmpty || s.length < 50 then (none, false)
    else aiDispatch provider ("NEWS_ANALYSIS:" ++ s.take 15000)

/-- `get_ai_podcast_analysis` (Pods.py): guard
`if not transcript_text or len(transcript_text) < 500: return None`, prompt
over the first 25000 characters. -/
def get_ai_podcast_analysis (provider : String → Option AiData)
    (transcript_text : Option String) : Option AiData × Bool :=
  match transcript_text with
  | none => (none, false)
  | some s =>
    if s.isEmpty || s.length < 500 then (none, false)
    else aiDispatch provider ("PODCAST_ANALYSIS:" ++ s.take 25000)

/-- `get_ai_rss_podcast_analysis` (Pods.py): guard
`if not description or len(description) < 100: return None`; the title is
only interpolated into the prompt. -/
def get_ai_rss_podcast_analysis (provider : String → Option AiData)
    (title : String) (description : Option String) : Option AiData × Bool :=
  match description with
  | none => (none, false)
  | some s =>
    if s.isEmpty || s.length < 100 then (none, false)
    else aiDispatch provider ("RSS_PODCAST_ANALYSIS:" ++ title ++ ":" ++ s.take 15000)

/-! ## Telegram transport

Credentials come from the environment.  Every send function first checks
`if not TELEGRAM_TOKEN or not TELEGRAM_CHANNEL_ID: print(...); return` —
with missing credentials nothing is sent.  The transport outcome of an
actual network send is a black-box boolean supplied by the environment. -/

/-- The environment-provided secrets (`None` models an unset variable; an
empty string is equally falsy in the Python checks). -/
structure Creds where
  telegram_token : Option String
  telegram_channel_id : Option String
  gemini_api_key : Option String
  groq_api_key : Option String

/-- Whether both messaging credentials are present, per
`if not TELEGRAM_TOKEN or not TELEGRAM_CHANNEL_ID`. -/
def credsOk (c : Creds) : Bool :=
  pyTruthyOptStr c.telegram_token && pyTruthyOptStr c.telegram_channel_id

/-- `send_to_telegram` (main3.py/main5.py): checks credentials, performs the
send (one or two network posts), catches any transport error and just prints
it.  The function returns `None` in the source — the transport outcome is
recorded in the trace but not reported to the caller. -/
def send_to_telegram (c : Creds) (outcome : Bool) : List Ev :=
  if credsOk c then [Ev.sendCall, Ev.publish outcome] else [Ev.sendCall]

/-- `send_simple_podcast_to_telegram` (Pods.py): checks credentials, returns
`False` without sending when they are missing, otherwise returns the
transport's reported outcome (`True` only on a confirmed send). -/
def send_simple_podcast_to_telegram (c : Creds) (outcome : Bool) :
    Bool × List Ev :=
  if credsOk c then (outcome, [Ev.sendCall, Ev.publish outcome])
  else (false, [Ev.sendCall])

/-- `send_podcast_to_telegram` (Pods.py): two ordered sends (video link, then
the analysis as a reply); overall success requires both.  A failure of the
first send raises inside the `try`, so the second is not attempted. -/
def send_podcast_to_telegram (c : Creds) (videoOutcome analysisOutcome : Bool) :
    Bool × List Ev :=
  if credsOk c then
    if videoOutcome then
      (analysisOutcome,
        [Ev.sendCall, Ev.publish videoOutcome, Ev.publish analysisOutcome])
    else (false, [Ev.sendCall, Ev.publish videoOutcome])
  else (false, [Ev.sendCall])

/-! ## Formatters

The formatters are total functions of the AI dictionary and the source
metadata; no claim depends on the rendered text, so the template literals
are abbreviated while keeping every input in the output. -/

/-- `format_paper_telegram_message` (main3.py/main5.py). -/
def format_paper_telegram_message (original_title source_name hashtag_en
    category_fa : String) (ai_data : AiData) (link : String) : String :=
  "PAPER|" ++ original_title ++ "|" ++ ai_data.get "summary" "" ++ "|" ++
    ai_data.get "eli5" "" ++ "|" ++ link ++ "|" ++ source_name ++ "|" ++
    hashtag_en ++ "|" ++ category_fa

/-- `format_news_telegram_message` (main3.py/main5.py). -/
def format_news_telegram_message (original_title source_name hashtag_en
    category_fa : String) (ai_data : AiData) (link : String)
    (doi_link : Option String) : String :=
  "NEWS|" ++ ai_data.get "catchy_title" original_title ++ "|" ++
    ai_data.get "summary" "" ++ "|" ++ ai_data.get "eli5" "" ++ "|" ++
    (doi_link.getD "") ++ "|" ++ link ++ "|" ++ source_name ++ "|" ++
    hashtag_en ++ "|" ++ category_fa

/-- `format_podcast_telegram_message` (Pods.py). -/
def format_podcast_telegram_message (ai_data : AiData)
    (original_title : String) (pub_date : Option String)
    (podcaster_name hashtag_en category_fa : String)
    (mp3_url : Option String) : String :=
  "PODCAST|" ++ original_title ++ "|" ++ (pub_date.getD "") ++ "|" ++
    ai_data.get "guest_name" "" ++ "|" ++ ai_data.get "summary" "" ++ "|" ++
    (mp3_url.getD "") ++ "|" ++ podcaster_name ++ "|" ++ hashtag_en ++ "|" ++
    category_fa

/-- `format_rss_podcast_telegram_message` (Pods.py). -/
def format_rss_podcast_telegram_message (ai_data : AiData)
    (original_title : String) (pub_date : Option String) (mp3_url : String)
    (podcaster_name hashtag_en category_fa : String) : String :=
  "RSSPODCAST|" ++ ai_data.get "catchy_title" original_title ++ "|" ++
    (pub_date.getD "") ++ "|" ++ ai_data.get "summary" "" ++ "|" ++ mp3_url ++
    "|" ++ podcaster_name ++ "|" ++ hashtag_en ++ "|" ++ category_fa

/-! ## main3.py — `process_feeds`

One shared history file (`posted_links3.txt`), loaded once per run.  For
each source (in random order) the script takes the first 20 feed entries,
shuffles them, and walks them: the first unseen entry that survives
extraction and AI analysis is posted, its link added to the in-memory set
and the loop broken; an entry failing extraction or analysis is skipped and
the walk continues with the next entry.  The whole per-source body is inside
`try/except`; the updated set is written back once, at the end of the run,
and only if some link was added. -/

namespace Main3

/-- A feed entry as `feedparser` returns it.  `link` is the deduplication
key; attribute access on a missing `title` raises `AttributeError` in the
source, hence the `Option`.  `content` is the text extracted from
`entry.content[0].value` for `rss_content_only` sources, when present. -/
structure Entry where
  link : String
  title : Option String
  content : Option String
deriving DecidableEq, Repr

/-- The `{'text':…, 'image_url':…, 'doi_link':…}` dictionary returned by the
full-page scrapers. -/
structure ContentData where
  text : Option String
  image_url : Option String
  doi_link : Option String
deriving DecidableEq, Repr

/-- One entry of the `SOURCES` configuration table. -/
structure Source where
  name : String
  url : String
  srcType : String
  post_format : String
  category_fa : String
  hashtag_en : String
deriving DecidableEq, Repr

/-- The external world of one main3 run.  Each scraper in the source catches
its own exceptions and returns a value, so they are plain functions here. -/
structure Env where
  /-- `feedparser.parse(url).entries` -/
  feed : String → List Entry
  /-- `random.shuffle` of the capped entry list: the permutation the RNG
  produced this run -/
  shuffleEntries : List Entry → List Entry
  /-- the scrapers returning a full `ContentData` dict
  (`scrape_sciencedaily_article`, `scrape_phys_org_article`), keyed by
  source type and link -/
  scrapeFull : String → String → ContentData
  /-- the text-only scrapers (`scrape_full_article_page`,
  `scrape_pubmed_abstract`, `fetch_content_via_crossref`) -/
  scrapeText : String → String → Option String
  /-- the AI provider call on a prompt -/
  provider : String → Option AiData
  creds : Creds
  /-- the transport's reported outcome of this run's send, which
  `send_to_telegram` observes but does not return -/
  publishOutcome : Bool
  /-- content of `posted_links3.txt` at run start (`none` = missing) -/
  histFile : Option String

/-- The scraper dispatch of `process_feeds`: which `content_data` dictionary
the selected entry yields, by source type.  An unknown type leaves
`content_data = None`. -/
def contentOf (env : Env) (srcType : String) (e : Entry) : Option ContentData :=
  if srcType = "phys_org" || srcType = "sciencedaily" then
    some (env.scrapeFull srcType e.link)
  else if srcType = "full_page_scrape" || srcType = "pubmed" ||
      srcType = "crossref_doi" then
    some ⟨env.scrapeText srcType e.link, none, none⟩
  else if srcType = "rss_content_only" then
    some ⟨e.content, none, none⟩
  else none

/-- The usable text of an entry: `content_data.get('text')` followed by the
truthiness test `if full_text:` (so `""` counts as no content). -/
def fullTextOf (env : Env) (srcType : String) (e : Entry) : Option String :=
  match (contentOf env srcType e).bind (·.text) with
  | none => none
  | some t => if t.isEmpty then none else some t

/-- Result of processing one source group (or a prefix of its entry walk). -/
structure StepOut where
  posted : Finset String
  evs : List Ev
  found : Bool
  threw : Bool

/-- The AI/formatting stage for one entry with usable text `t`: dispatch on
`post_format`, returning the analysis, whether the provider was invoked, and
the rendered message when analysis succeeded. -/
def analyze (env : Env) (src : Source) (e : Entry) (t : String) :
    Option AiData × Bool × Option String :=
  if src.post_format = "scientific_paper" then
    let (ai, called) := get_ai_paper_analysis env.provider (some t)
    (ai, called, ai.map (fun d =>
      format_paper_telegram_message ((e.title).getD "") src.name
        src.hashtag_en src.category_fa d e.link))
  else if src.post_format = "scientific_news" then
    let (ai, called) := get_ai_news_analysis env.provider (some t)
    (ai, called, ai.map (fun d =>
      format_news_telegram_message ((e.title).getD "") src.name
        src.hashtag_en src.category_fa d e.link
        ((contentOf env src.srcType e).bind (·.doi_link))))
  else (none, false, none)

/-- The inner `for entry in potential_entries:` walk of `process_feeds`.
Already-posted entries are skipped; a missing `title` raises at the
`Found new item to process` print (caught by the per-source `except`); an
entry with no usable text or a failed analysis is skipped and the walk
continues; a formatted message is sent (outcome ignored), the link added,
and the walk broken. -/
def processEntries (env : Env) (src : Source) :
    List Entry → Finset String → StepOut
  | [], posted => ⟨posted, [], false, false⟩
  | e :: rest, posted =>
    if e.link ∈ posted then processEntries env src rest posted
    else
      match e.title with
      | none => ⟨posted, [Ev.consider e.link], false, true⟩
      | some _ =>
        match fullTextOf env src.srcType e with
        | none =>
          let r := processEntries env src rest posted
          ⟨r.posted, Ev.consider e.link :: r.evs, r.found, r.threw⟩
        | some t =>
          let (_, called, message) := analyze env src e t
          let evs0 := Ev.consider e.link :: (if called then [Ev.aiCall] else [])
          match message with
          | some _ =>
            ⟨insert e.link posted,
              evs0 ++ send_to_telegram env.creds env.publishOutcome,
              true, false⟩
          | none =>
            let r := processEntries env src rest posted
            ⟨r.posted, evs0 ++ r.evs, r.found, r.threw⟩

/-- Processing of one source of `process_feeds`: parse the feed, skip when
empty, otherwise shuffle the first 20 entries (`feed.entries[:20]`) and walk
them. -/
def processGroup (env : Env) (src : Source) (posted : Finset String) : StepOut :=
  let entries := env.feed src.url
  if entries.isEmpty then ⟨posted, [], false, false⟩
  else processEntries env src (env.shuffleEntries (entries.take 20)) posted

/-- A finished run: final in-memory set, event trace, and the file content
written by the final save (`none` when nothing was saved). -/
structure RunOut where
  posted : Finset String
  evs : List Ev
  saved : Option String

/-- The per-source loop: each body runs inside `try/except`, so a raise is
logged and the next source still processed, with all mutations made before
the raise kept. -/
def processList (env : Env) : List Source → Finset String → Bool →
    Finset String × List Ev × Bool
  | [], posted, found => (posted, [], found)
  | s :: rest, posted, found =>
    let r := processGroup env s posted
    let (p, evs, f) := processList env rest r.posted (found || r.found)
    (p, (Ev.group s.name :: r.evs) ++ evs, f)

/-- `process_feeds` (main3.py): load the shared history once, process the
sources in the given (shuffled) order, and save once at the end of the run
if any new link was found. -/
def process_feeds (env : Env) (sources : List Source) : RunOut :=
  let posted0 := load_posted_links env.histFile
  let (p, evs, found) := processList env sources posted0 false
  if found then ⟨p, evs ++ [Ev.save], some (save_posted_links p)⟩
  else ⟨p, evs, none⟩

/-- The `__main__` guard: with provider `gemini` and no `GEMINI_API_KEY`
(or `groq` and no `GROQ_API_KEY`) only an error is printed and the run never
starts. -/
def mainEntry (env : Env) (sources : List Source) : Option RunOut :=
  if AI_PROVIDER = "gemini" && !pyTruthyOptStr env.creds.gemini_api_key then none
  else if AI_PROVIDER = "groq" && !pyTruthyOptStr env.creds.groq_api_key then none
  else some (process_feeds env sources)

end Main3

/-! ## main5.py — `process_feeds`

Like main3 but each source has a *list* of feed URLs.  Discovery aggregates
every unseen entry across all feeds, with a `try/except` around each feed
fetch only; the selection and processing stage after discovery is *not*
inside any `try`, so an exception there (e.g. the selected entry lacking a
`title` attribute at the `Selected to process` print) propagates out of
`process_feeds` and kills the run, including the final history save. -/

namespace Main5

/-- One entry of main5's `SOURCES` table (`url` is a list of feeds). -/
structure Source where
  name : String
  urls : List String
  srcType : String
  post_format : String
  category_fa : String
  hashtag_en : String
deriving DecidableEq, Repr

/-- The external world of one main5 run.  A feed fetch may raise
(`Except.error`), which the per-feed `try` catches. -/
structure Env where
  feed : String → Except String (List Main3.Entry)
  /-- index drawn by `random.choice` (reduced modulo the pool size) -/
  pick : Nat
  scrapeFull : String → String → Main3.ContentData
  scrapeText : String → String → Option String
  provider : String → Option AiData
  creds : Creds
  publishOutcome : Bool
  histFile : Option String

/-- Discovery: `for feed_url in source_info['url']:` with a `try/except`
per feed; every entry whose link is not yet posted is collected, duplicate
identifiers across feeds included. -/
def collectNew (env : Env) (posted : Finset String) (urls : List String) :
    List Main3.Entry :=
  urls.flatMap (fun u =>
    match env.feed u with
    | .error _ => []
    | .ok entries => entries.filter (fun e => e.link ∉ posted))

/-- The last entry bound by the aggregation loop's `entry` variable (every
entry of every successfully fetched feed is iterated); the
`rss_content_only` branch of the processing stage reads this stale variable
instead of `entry_to_process`. -/
def lastIterated (env : Env) (urls : List String) : Option Main3.Entry :=
  (urls.flatMap (fun u =>
    match env.feed u with
    | .error _ => []
    | .ok entries => entries)).getLast?

/-- The scraper dispatch of main5's processing stage. -/
def contentOf (env : Env) (urls : List String) (srcType : String)
    (e : Main3.Entry) : Option Main3.ContentData :=
  if srcType = "phys_org" || srcType = "sciencedaily" ||
      srcType = "nvidia_news" || srcType = "popsci" then
    some (env.scrapeFull srcType e.link)
  else if srcType = "full_page_scrape" || srcType = "pubmed" ||
      srcType = "crossref_doi" then
    some ⟨env.scrapeText srcType e.link, none, none⟩
  else if srcType = "rss_content_only" then
    some ⟨(lastIterated env urls).bind (·.content), none, none⟩
  else none

/-- The usable text of the selected entry (`if full_text:` truthiness). -/
def fullTextOf (env : Env) (src : Source) (e : Main3.Entry) : Option String :=
  match (contentOf env src.urls src.srcType e).bind (·.text) with
  | none => none
  | some t => if t.isEmpty then none else some t

/-- The AI/formatting stage for the selected entry. -/
def analyze (env : Env) (src : Source) (e : Main3.Entry) (t : String) :
    Option AiData × Bool × Option String :=
  if src.post_format = "scientific_paper" then
    let (ai, called) := get_ai_paper_analysis env.provider (some t)
    (ai, called, ai.map (fun d =>
      format_paper_telegram_message ((e.title).getD "") src.name
        src.hashtag_en src.category_fa d e.link))
  else if src.post_format = "scientific_news" then
    let (ai, called) := get_ai_news_analysis env.provider (some t)
    (ai, called, ai.map (fun d =>
      format_news_telegram_message ((e.title).getD "") src.name
        src.hashtag_en src.category_fa d e.link
        ((contentOf env src.urls src.srcType e).bind (·.doi_link))))
  else (none, false, none)

/-- The selection-and-processing stage for an aggregated pool: pick one
entry at random, then run it through extraction → AI → formatting → send;
the link is added whenever a message was formatted, the send outcome being
ignored.  `threw = true` models the uncaught `AttributeError` at the
`Selected to process` print. -/
def pickAndProcess (env : Env) (src : Source) (pool : List Main3.Entry)
    (posted : Finset String) : Main3.StepOut :=
  match pool with
  | [] => ⟨posted, [], false, false⟩
  | p0 :: _ =>
    let e := pool.getD (env.pick % pool.length) p0
    match e.title with
    | none => ⟨posted, [Ev.consider e.link], false, true⟩
    | some _ =>
      match fullTextOf env src e with
      | none => ⟨posted, [Ev.consider e.link], false, false⟩
      | some t =>
        let (_, called, message) := analyze env src e t
        let evs0 := Ev.consider e.link :: (if called then [Ev.aiCall] else [])
        match message with
        | some _ =>
          ⟨insert e.link posted,
            evs0 ++ send_to_telegram env.creds env.publishOutcome,
            true, false⟩
        | none => ⟨posted, evs0, false, false⟩

/-- Processing of one source: aggregate across all its feeds, then select
and process. -/
def processGroup (env : Env) (src : Source) (posted : Finset String) :
    Main3.StepOut :=
  pickAndProcess env src (collectNew env posted src.urls) posted

/-- A finished (or aborted) main5 run. -/
structure RunOut where
  posted : Finset String
  evs : List Ev
  saved : Option String
  aborted : Bool

/-- The per-source loop: there is no `try` around the processing stage, so
a raise aborts the loop — remaining sources are not processed. -/
def processList (env : Env) : List Source → Finset String → Bool →
    Finset String × List Ev × Bool × Bool
  | [], posted, found => (posted, [], found, false)
  | s :: rest, posted, found =>
    let r := processGroup env s posted
    if r.threw then (r.posted, Ev.group s.name :: r.evs, found || r.found, true)
    else
      let (p, evs, f, a) := processList env rest r.posted (found || r.found)
      (p, (Ev.group s.name :: r.evs) ++ evs, f, a)

/-- `process_feeds` (main5.py): an aborted run reaches neither the final
save nor the end of the loop. -/
def process_feeds (env : Env) (sources : List Source) : RunOut :=
  let posted0 := load_posted_links env.histFile
  let (p, evs, found, aborted) := processList env sources posted0 false
  if aborted then ⟨p, evs, none, true⟩
  else if found then ⟨p, evs ++ [Ev.save], some (save_posted_links p), false⟩
  else ⟨p, evs, none, false⟩

end Main5

/-! ## Pods.py — `process_all_podcasts`

Each podcast group has its own history file, loaded at the start of the
group's processing and rewritten immediately after a confirmed successful
send (`if success:` — lines 904-910).  The whole branch body runs inside a
per-group `try/except`. -/

namespace Pods

/-- Python truthiness filter on an optional string (`if not x:`). -/
def truthy (o : Option String) : Option String :=
  o.bind (fun s => if s.isEmpty then none else some s)

/-- A feedparser entry of a podcast feed.  `enclosure_hrefs` carries the
`'href'` of each enclosure dictionary (absent keys give `none`); a missing
`title` attribute raises on access.  `itunes_summary`/`description` hold the
text as the orchestrator sees it after `BeautifulSoup(...).get_text` — the
HTML stripping itself is not modelled, only its result. -/
structure Episode where
  link : String
  title : Option String
  enclosure_hrefs : List (Option String)
  itunes_summary : Option String
  description : Option String
  published : Option String
deriving DecidableEq, Repr

/-- The deduplication identifier of an episode:
`unique_id = episode.get('link')`, overridden by
`episode.enclosures[0].get('href', unique_id)` when enclosures exist. -/
def episodeUid (e : Episode) : String :=
  match e.enclosure_hrefs with
  | [] => e.link
  | h :: _ => h.getD e.link

/-- An episode scraped off a Philosophy Bites index page (the scraper only
emits entries having both url and title). -/
structure PBEpisode where
  url : String
  title : String
deriving DecidableEq, Repr

/-- One group of the `PODCASTS` table together with this run's external data
for it: each scraper catches its own errors, so index pages, feeds and page
scrapes are plain data/functions.  `histFile` is the durable content of the
group's history file at group start (`none` = missing). -/
structure Group where
  name : String
  scraper_type : String
  category_fa : String
  hashtag_en : String
  histFile : Option String
  /-- `scrape_philosophybites_index_page` result per configured index url -/
  indexPages : List (List PBEpisode)
  /-- `scrape_philosophybites_episode_page`: url ↦ (transcript, mp3_url) -/
  episodePage : String → Option String × Option String
  /-- `scrape_philosophizethis_index_page`: the latest transcript url -/
  latestIndex : Option String
  /-- `scrape_philosophizethis_transcript_page` -/
  transcriptPage : String → Option String
  /-- `feedparser.parse` result per configured feed url -/
  feeds : List (List Episode)
  /-- `scrape_lexfridman_episode_page`: link ↦ (transcript_url, youtube_url) -/
  lexPage : String → Option String × Option String
  /-- `scrape_lexfridman_transcript_page` -/
  lexTranscript : String → Option String
  /-- index drawn by `random.choice` (reduced modulo the pool size) -/
  pick : Nat
  /-- transport outcome of this group's (first) send -/
  sendOutcome : Bool
  /-- transport outcome of the reply send in the two-part lexfridman post -/
  sendOutcome2 : Bool

/-- Shared external collaborators of a Pods run. -/
structure Env where
  provider : String → Option AiData
  creds : Creds

/-- First-occurrence deduplication, the key order of a Python dict built by
comprehension. -/
def firstDedup : List String → List String
  | [] => []
  | x :: xs => x :: (firstDedup xs).filter (fun y => y ≠ x)

/-- `{ep['url']: ep for ep in all_new_episodes}.values()`: one entry per
url, keys in first-occurrence order, each mapped to its *last* occurrence. -/
def dedupByUrl (l : List PBEpisode) : List PBEpisode :=
  (firstDedup (l.map (·.url))).filterMap
    (fun u => l.reverse.find? (fun ep => ep.url = u))

/-- The deduplicated unseen pool of the `philosophybites_web` branch:
aggregate unseen episodes across all index pages, then deduplicate by url. -/
def pbPool (pages : List (List PBEpisode)) (posted : Finset String) :
    List PBEpisode :=
  dedupByUrl (pages.flatMap (fun page => page.filter (fun ep => ep.url ∉ posted)))

/-- The unseen pool of the `multi_rss_random` branch: every episode of every
feed whose identifier is unseen — *without* deduplication. -/
def multiPool (feeds : List (List Episode)) (posted : Finset String) :
    List Episode :=
  feeds.flatMap (fun f => f.filter (fun ep => episodeUid ep ∉ posted))

/-- Outcome of one branch body: whether the send was confirmed successful,
the identifier to commit, the trace, and whether the body raised. -/
structure BOut where
  success : Bool
  uid : Option String
  evs : List Ev
  threw : Bool

/-- The `philosophybites_web` branch, applied to the deduplicated unseen
pool. -/
def runPBsel (env : Env) (g : Group) :
    List PBEpisode → BOut
  | [] => ⟨false, none, [], false⟩
  | u0 :: tl =>
    let uniq := u0 :: tl
    let sel := uniq.getD (g.pick % uniq.length) u0
    let uid := sel.url
    let (transcript, mp3) := g.episodePage uid
    match truthy transcript with
    | none => ⟨false, some uid, [Ev.consider uid], false⟩
    | some t =>
      let (ai, called) := get_ai_podcast_analysis env.provider (some t)
      let evs0 := Ev.consider uid :: (if called then [Ev.aiCall] else [])
      match ai with
      | none => ⟨false, some uid, evs0, false⟩
      | some d =>
        let _msg := format_podcast_telegram_message d sel.title none g.name
          g.hashtag_en g.category_fa mp3
        let (succ, sendEvs) :=
          send_simple_podcast_to_telegram env.creds g.sendOutcome
        ⟨succ, some uid, evs0 ++ sendEvs, false⟩

/-- The `philosophybites_web` branch. -/
def runPB (env : Env) (g : Group) (posted : Finset String) : BOut :=
  runPBsel env g (pbPool g.indexPages posted)

/-- The `philosophizethis_web` branch (latest transcript only). -/
def runPT (env : Env) (g : Group) (posted : Finset String) : BOut :=
  match g.latestIndex with
  | none => ⟨false, none, [], false⟩
  | some url =>
    if url ∈ posted then ⟨false, some url, [], false⟩
    else
      match truthy (g.transcriptPage url) with
      | none => ⟨false, some url, [Ev.consider url], false⟩
      | some t =>
        let (ai, called) := get_ai_podcast_analysis env.provider (some t)
        let evs0 := Ev.consider url :: (if called then [Ev.aiCall] else [])
        match ai with
        | none => ⟨false, some url, evs0, false⟩
        | some d =>
          let _msg := format_podcast_telegram_message d
            ("Philosophize This! - " ++ url) none g.name g.hashtag_en
            g.category_fa none
          let (succ, sendEvs) :=
            send_simple_podcast_to_telegram env.creds g.sendOutcome
          ⟨succ, some url, evs0 ++ sendEvs, false⟩

/-- The `multi_rss_random` branch applied to the aggregated unseen pool:
pick one episode at random; the `episode_title = selected_episode.title`
access raises when the title is missing. -/
def runMultiSel (env : Env) (g : Group) :
    List Episode → BOut
  | [] => ⟨false, none, [], false⟩
  | p0 :: tl =>
    let pool := p0 :: tl
    let sel := pool.getD (g.pick % pool.length) p0
    let uid := episodeUid sel
    match sel.title with
    | none => ⟨false, some uid, [Ev.consider uid], true⟩
    | some ttl =>
      let desc := sel.itunes_summary.getD (sel.description.getD "")
      let mp3 : Option String := match sel.enclosure_hrefs with
        | [] => none
        | h :: _ => h
      if desc.isEmpty || (truthy mp3).isNone then
        ⟨false, some uid, [Ev.consider uid], false⟩
      else
        let (ai, called) := get_ai_rss_podcast_analysis env.provider ttl (some desc)
        let evs0 := Ev.consider uid :: (if called then [Ev.aiCall] else [])
        match ai with
        | none => ⟨false, some uid, evs0, false⟩
        | some d =>
          let _msg := format_rss_podcast_telegram_message d ttl sel.published
            ((truthy mp3).getD "") g.name g.hashtag_en g.category_fa
          let (succ, sendEvs) :=
            send_simple_podcast_to_telegram env.creds g.sendOutcome
          ⟨succ, some uid, evs0 ++ sendEvs, false⟩

/-- The `multi_rss_random` branch. -/
def runMulti (env : Env) (g : Group) (posted : Finset String) : BOut :=
  runMultiSel env g (multiPool g.feeds posted)

/-- The `podscribe_rss` branch: only `feed.entries[0]` is ever considered;
an already-posted latest episode skips the group regardless of older unseen
entries. -/
def runPodscribe (env : Env) (g : Group) (posted : Finset String) : BOut :=
  match g.feeds.head? with
  | none => ⟨false, none, [], true⟩
  | some entries =>
    match entries with
    | [] => ⟨false, none, [], false⟩
    | latest :: _ =>
      let uid := episodeUid latest
      if uid ∈ posted then
        match latest.title with
        | none => ⟨false, some uid, [], true⟩
        | some _ => ⟨false, some uid, [], false⟩
      else
        match latest.title with
        | none => ⟨false, some uid, [Ev.consider uid], true⟩
        | some ttl =>
          let desc := latest.itunes_summary.getD (latest.description.getD "")
          let mp3 : Option String := match latest.enclosure_hrefs with
            | [] => none
            | h :: _ => h
          let (ai, called) := get_ai_rss_podcast_analysis env.provider ttl (some desc)
          let evs0 := Ev.consider uid :: (if called then [Ev.aiCall] else [])
          match ai, truthy mp3 with
          | some d, some m =>
            let _msg := format_rss_podcast_telegram_message d ttl
              latest.published m g.name g.hashtag_en g.category_fa
            let (succ, sendEvs) :=
              send_simple_podcast_to_telegram env.creds g.sendOutcome
            ⟨succ, some uid, evs0 ++ sendEvs, false⟩
          | _, _ => ⟨false, some uid, evs0, false⟩

/-- The `lexfridman` branch: only `feed.entries[0]` is considered; the post
is the two-part video-plus-reply send. -/
def runLex (env : Env) (g : Group) (posted : Finset String) : BOut :=
  match g.feeds.head? with
  | none => ⟨false, none, [], true⟩
  | some entries =>
    match entries with
    | [] => ⟨false, none, [], false⟩
    | latest :: _ =>
      let uid := latest.link
      if uid ∈ posted then
        match latest.title with
        | none => ⟨false, some uid, [], true⟩
        | some _ => ⟨false, some uid, [], false⟩
      else
        match latest.title with
        | none => ⟨false, some uid, [Ev.consider uid], true⟩
        | some ttl =>
          let (turl, yurl) := g.lexPage latest.link
          match truthy turl with
          | none => ⟨false, some uid, [Ev.consider uid], false⟩
          | some tu =>
            match truthy yurl, truthy (g.lexTranscript tu) with
            | some _, some t =>
              let (ai, called) := get_ai_podcast_analysis env.provider (some t)
              let evs0 := Ev.consider uid :: (if called then [Ev.aiCall] else [])
              match ai with
              | none => ⟨false, some uid, evs0, false⟩
              | some d =>
                let _msg := format_podcast_telegram_message d ttl
                  latest.published g.name g.hashtag_en g.category_fa none
                let (succ, sendEvs) :=
                  send_podcast_to_telegram env.creds g.sendOutcome g.sendOutcome2
                ⟨succ, some uid, evs0 ++ sendEvs, false⟩
            | _, _ => ⟨false, some uid, [Ev.consider uid], false⟩

/-- Dispatch on `scraper_type`; an unknown type only prints an error. -/
def branch (env : Env) (g : Group) (posted : Finset String) : BOut :=
  if g.scraper_type = "philosophybites_web" then runPB env g posted
  else if g.scraper_type = "philosophizethis_web" then runPT env g posted
  else if g.scraper_type = "multi_rss_random" then runMulti env g posted
  else if g.scraper_type = "podscribe_rss" then runPodscribe env g posted
  else if g.scraper_type = "lexfridman" then runLex env g posted
  else ⟨false, none, [], false⟩

/-- Result of one group: the in-memory set after the group, the trace, the
send-success flag, and the file content written by the immediate per-group
save (`none` when nothing was committed). -/
structure GroupOut where
  posted : Finset String
  evs : List Ev
  success : Bool
  saved : Option String
  threw : Bool

/-- The unified history commit (`if success:` — lines 904-910): add the
identifier to the in-memory set and rewrite the history file immediately. -/
def commit (posted : Finset String) (b : BOut) : GroupOut :=
  if b.success then
    match b.uid with
    | some u =>
      ⟨insert u posted, b.evs ++ [Ev.save], true,
        some (save_posted_links (insert u posted)), b.threw⟩
    | none => ⟨posted, b.evs, true, none, b.threw⟩
  else ⟨posted, b.evs, false, none, b.threw⟩

/-- One group of `process_all_podcasts`: load the group's own history file,
run the branch inside `try/except`, and on a confirmed successful send add
the identifier and rewrite the history file immediately. -/
def processGroup (env : Env) (g : Group) : GroupOut :=
  commit (load_posted_links g.histFile)
    (branch env g (load_posted_links g.histFile))

/-- `process_all_podcasts` (Pods.py): the groups have pairwise distinct
history files, so each group's outcome depends only on its own input; a
branch that raised is caught and logged, and the remaining groups are still
processed. -/
def process_all_podcasts (env : Env) (groups : List Group) :
    List (String × GroupOut) :=
  groups.map (fun g => (g.name, processGroup env g))

/-- The event trace of a whole Pods run. -/
def runEvents (env : Env) (groups : List Group) : List Ev :=
  groups.flatMap (fun g => Ev.group g.name :: (processGroup env g).evs)

end Pods

/-- Shape of the events a single group's body can emit: `consider`
identifiers satisfy `P`, provider/send/publish events are unconstrained, and
neither `group` markers nor `save` events occur inside a body. -/
def stepEv (P : String → Prop) : Ev → Prop
  | Ev.consider id => P id
  | Ev.aiCall => True
  | Ev.sendCall => True
  | Ev.publish _ => True
  | Ev.group _ => False
  | Ev.save => False

namespace Pods

/-- What a confirmed send guarantees for a branch result: the committed
identifier exists and the transport did report success. -/
def BOk (g : Group) (b : BOut) : Prop :=
  b.success = true → b.uid.isSome = true ∧ g.sendOutcome = true

end Pods

/-! ## Concrete runs used by the counterexamples and witnesses -/

set_option maxRecDepth 10000

/-- An article body long enough to pass every AI length guard. -/
def longText : String := String.mk (List.replicate 600 'x')

/-- All credentials present. -/
def okCreds : Creds := ⟨some "tok", some "chan", some "gk", none⟩

/-- A main3 world: one feed with two entries; extraction of `l1` finds no
text, extraction of `l2` succeeds; the AI provider answers; the transport
reports failure. -/
def env3A : Main3.Env where
  feed := fun _ => [⟨"l1", some "t1", none⟩, ⟨"l2", some "t2", none⟩]
  shuffleEntries := id
  scrapeFull := fun _ link =>
    if link = "l1" then ⟨none, none, none⟩ else ⟨some longText, some "img", none⟩
  scrapeText := fun _ _ => none
  provider := fun _ => some [("summary", "s")]
  creds := okCreds
  publishOutcome := false
  histFile := none

def src3A : Main3.Source :=
  ⟨"S", "u", "sciencedaily", "scientific_news", "cat", "tag"⟩

/-- A main3 world with two sources whose feeds each hold one fresh entry and
whose publishes succeed. -/
def env3B : Main3.Env where
  feed := fun u => if u = "u1" then [⟨"a", some "ta", none⟩]
    else [⟨"b", some "tb", none⟩]
  shuffleEntries := id
  scrapeFull := fun _ _ => ⟨some longText, none, none⟩
  scrapeText := fun _ _ => none
  provider := fun _ => some [("summary", "s")]
  creds := okCreds
  publishOutcome := true
  histFile := none

def src3B1 : Main3.Source :=
  ⟨"S1", "u1", "sciencedaily", "scientific_news", "c", "h"⟩

def src3B2 : Main3.Source :=
  ⟨"S2", "u2", "sciencedaily", "scientific_news", "c", "h"⟩

/-- A history file holding `L0` … `L19`, one per line. -/
def c6File : String :=
  String.mk (((List.range 20).map (fun i => ("L" ++ toString i).data ++ ['\n'])).flatten)

/-- A main3 world whose feed returns 21 entries `L0` … `L20`, the first 20 of
which are already in the history file. -/
def env3C : Main3.Env where
  feed := fun _ => (List.range 21).map (fun i => ⟨"L" ++ toString i, some "t", none⟩)
  shuffleEntries := id
  scrapeFull := fun _ _ => ⟨some longText, none, none⟩
  scrapeText := fun _ _ => none
  provider := fun _ => some [("summary", "s")]
  creds := okCreds
  publishOutcome := true
  histFile := some c6File

def src3C : Main3.Source :=
  ⟨"SC", "u", "sciencedaily", "scientific_news", "c", "h"⟩

/-- A main3 world with the messaging token absent but the AI key present. -/
def env3D : Main3.Env where
  feed := fun _ => [⟨"l2", some "t2", none⟩]
  shuffleEntries := id
  scrapeFull := fun _ _ => ⟨some longText, none, none⟩
  scrapeText := fun _ _ => none
  provider := fun _ => some [("summary", "s")]
  creds := ⟨none, some "chan", some "gk", none⟩
  publishOutcome := true
  histFile := none

/-- A main5 world: the first source's only entry lacks a `title` attribute. -/
def env5A : Main5.Env where
  feed := fun u =>
    if u = "f1" then .ok [⟨"l1", none, none⟩]
    else .ok [⟨"l2", some "t2", none⟩]
  pick := 0
  scrapeFull := fun _ _ => ⟨some longText, none, none⟩
  scrapeText := fun _ _ => none
  provider := fun _ => some [("summary", "s")]
  creds := okCreds
  publishOutcome := true
  histFile := none

def src5A : Main5.Source := ⟨"S1", ["f1"], "popsci", "scientific_news", "c", "h"⟩

def src5B : Main5.Source := ⟨"S2", ["f2"], "popsci", "scientific_news", "c", "h"⟩

/-- A main5 world whose entries all carry titles. -/
def env5B : Main5.Env :=
  { env5A with feed := fun _ => .ok [⟨"l2", some "t2", none⟩] }

/-- The shared Pods collaborators: answering provider, full credentials. -/
def podsEnvT : Pods.Env where
  provider := fun _ => some [("summary", "s")]
  creds := okCreds

/-- A neutral Pods group to specialise per scenario. -/
def baseGroup : Pods.Group where
  name := "G"
  scraper_type := "unknown"
  category_fa := "cat"
  hashtag_en := "tag"
  histFile := none
  indexPages := []
  episodePage := fun _ => (none, none)
  latestIndex := none
  transcriptPage := fun _ => none
  feeds := []
  lexPage := fun _ => (none, none)
  lexTranscript := fun _ => none
  pick := 0
  sendOutcome := true
  sendOutcome2 := true

/-- A Philosophy Bites group: the same episode url surfaces on two index
pages; its page yields a transcript and an MP3; the send succeeds. -/
def pbG : Pods.Group :=
  { baseGroup with
    scraper_type := "philosophybites_web"
    indexPages := [[⟨"u1", "T1"⟩], [⟨"u1", "T1b"⟩]]
    episodePage := fun _ => (some longText, some "mp3") }

/-- The same group with the transport reporting failure. -/
def pbGF : Pods.Group := { pbG with sendOutcome := false }

/-- The same group but every episode page yields no transcript. -/
def pbGNoT : Pods.Group := { pbG with episodePage := fun _ => (none, some "mp3") }

/-- A podcast episode whose identifier `X` comes from its link. -/
def eX : Pods.Episode := ⟨"X", some "T", [], some longText, none, none⟩

/-- An episode whose enclosure identifier `m` is already in the history. -/
def eSeen : Pods.Episode := ⟨"lk", some "T", [some "m"], none, some "d", none⟩

/-- A podscribe group whose latest (and only surfaced) episode is already
posted. -/
def podscribeSeenG : Pods.Group :=
  { baseGroup with
    scraper_type := "podscribe_rss"
    feeds := [[eSeen]]
    histFile := some "m\n" }

/-! ## Helper lemmas -/

theorem getD_mod_mem {α : Type} (l : List α) (i : Nat) (d : α) (h : l ≠ []) :
    l.getD (i % l.length) d ∈ l := by
  have hlt : i % l.length < l.length := Nat.mod_lt _ (List.length_pos.mpr h)
  rw [List.getD_eq_getElem?_getD, List.getElem?_eq_getElem hlt]
  exact List.getElem_mem hlt

theorem stepEv_mono {P Q : String → Prop} (h : ∀ id, P id → Q id) :
    ∀ ev, stepEv P ev → stepEv Q ev := by
  intro ev hp
  cases ev
  case consider id => exact h id hp
  all_goals exact hp

theorem stepEv_send_to_telegram {P : String → Prop} {c : Creds} {o : Bool} :
    ∀ ev ∈ send_to_telegram c o, stepEv P ev := by
  intro ev h
  unfold send_to_telegram at h
  by_cases hc : credsOk c = true
  · rw [if_pos hc] at h
    simp only [List.mem_cons, List.not_mem_nil, or_false] at h
    rcases h with rfl | rfl <;> trivial
  · rw [if_neg hc] at h
    simp only [List.mem_cons, List.not_mem_nil, or_false] at h
    subst h; trivial

theorem stepEv_send_simple {P : String → Prop} {c : Creds} {o : Bool} :
    ∀ ev ∈ (send_simple_podcast_to_telegram c o).2, stepEv P ev := by
  intro ev h
  unfold send_simple_podcast_to_telegram at h
  by_cases hc : credsOk c = true
  · rw [if_pos hc] at h
    simp only [List.mem_cons, List.not_mem_nil, or_false] at h
    rcases h with rfl | rfl <;> trivial
  · rw [if_neg hc] at h
    simp only [List.mem_cons, List.not_mem_nil, or_false] at h
    subst h; trivial

theorem stepEv_send_podcast {P : String → Prop} {c : Creds} {o₁ o₂ : Bool} :
    ∀ ev ∈ (send_podcast_to_telegram c o₁ o₂).2, stepEv P ev := by
  intro ev h
  unfold send_podcast_to_telegram at h
  by_cases hc : credsOk c = true
  · rw [if_pos hc] at h
    by_cases hv : o₁ = true
    · rw [if_pos hv] at h
      simp only [List.mem_cons, List.not_mem_nil, or_false] at h
      rcases h with rfl | rfl | rfl <;> trivial
    · rw [if_neg hv] at h
      simp only [List.mem_cons, List.not_mem_nil, or_false] at h
      rcases h with rfl | rfl <;> trivial
  · rw [if_neg hc] at h
    simp only [List.mem_cons, List.not_mem_nil, or_false] at h
    subst h; trivial

theorem stepEv_aiIte {P : String → Prop} {b : Bool} :
    ∀ ev ∈ (if b then [Ev.aiCall] else []), stepEv P ev := by
  intro ev h
  split at h <;> simp at h
  subst h; trivial

theorem send_to_telegram_noCreds {c : Creds} {o : Bool}
    (h : credsOk c = false) : send_to_telegram c o = [Ev.sendCall] := by
  unfold send_to_telegram
  rw [if_neg (by simp [h])]

theorem send_simple_noCreds {c : Creds} {o : Bool} (h : credsOk c = false) :
    send_simple_podcast_to_telegram c o = (false, [Ev.sendCall]) := by
  unfold send_simple_podcast_to_telegram
  rw [if_neg (by simp [h])]

theorem send_simple_fst {c : Creds} {o : Bool}
    (h : (send_simple_podcast_to_telegram c o).1 = true) : o = true := by
  unfold send_simple_podcast_to_telegram at h
  by_cases hc : credsOk c = true
  · rw [if_pos hc] at h; exact h
  · rw [if_neg hc] at h; exact absurd h (by simp)

theorem send_podcast_fst {c : Creds} {o₁ o₂ : Bool}
    (h : (send_podcast_to_telegram c o₁ o₂).1 = true) : o₁ = true := by
  unfold send_podcast_to_telegram at h
  by_cases hc : credsOk c = true
  · rw [if_pos hc] at h
    by_cases hv : o₁ = true
    · exact hv
    · rw [if_neg hv] at h; exact absurd h (by simp)
  · rw [if_neg hc] at h; exact absurd h (by simp)

namespace Main3

theorem processEntries_evs (env : Env) (src : Source) :
    ∀ (entries : List Entry) (posted : Finset String),
      ∀ ev ∈ (processEntries env src entries posted).evs,
        stepEv (fun id => id ∈ entries.map (·.link) ∧ id ∉ posted) ev := by
  intro entries
  induction entries with
  | nil => intro posted ev h; simp [processEntries] at h
  | cons e rest ih =>
    intro posted ev h
    have weaken : ∀ ev, stepEv (fun id => id ∈ rest.map (·.link) ∧ id ∉ posted) ev →
        stepEv (fun id => id ∈ (e :: rest).map (·.link) ∧ id ∉ posted) ev :=
      stepEv_mono (fun id hid => ⟨List.mem_cons_of_mem _ hid.1, hid.2⟩)
    have hself : (e.link ∈ (e :: rest).map (·.link)) := by simp
    simp only [processEntries] at h
    by_cases hmem : e.link ∈ posted
    · rw [if_pos hmem] at h
      exact weaken ev (ih posted ev h)
    · rw [if_neg hmem] at h
      split at h
      · simp at h
        subst h
        exact ⟨hself, hmem⟩
      · split at h
        · simp only [List.mem_cons] at h
          rcases h with rfl | h
          · exact ⟨hself, hmem⟩
          · exact weaken ev (ih posted ev h)
        · split at h
          · simp only [List.cons_append, List.mem_cons, List.mem_append] at h
            rcases h with rfl | h | h
            · exact ⟨hself, hmem⟩
            · exact stepEv_aiIte ev h
            · exact stepEv_send_to_telegram ev h
          · simp only [List.cons_append, List.mem_cons, List.mem_append] at h
            rcases h with rfl | h | h
            · exact ⟨hself, hmem⟩
            · exact stepEv_aiIte ev h
            · exact weaken ev (ih posted ev h)

theorem processGroup_evs (env : Env) (src : Source) (posted : Finset String) :
    ∀ ev ∈ (processGroup env src posted).evs,
      stepEv (fun id =>
        id ∈ (env.shuffleEntries ((env.feed src.url).take 20)).map (·.link) ∧
          id ∉ posted) ev := by
  intro ev h
  unfold processGroup at h
  by_cases he : (env.feed src.url).isEmpty = true
  · rw [if_pos he] at h
    simp at h
  · rw [if_neg he] at h
    exact processEntries_evs env src _ posted ev h

theorem processGroup_save_not_mem (env : Env) (src : Source)
    (posted : Finset String) : Ev.save ∉ (processGroup env src posted).evs := by
  intro h
  exact processGroup_evs env src posted Ev.save h

theorem processGroup_group_not_mem (env : Env) (src : Source)
    (posted : Finset String) (n : String) :
    Ev.group n ∉ (processGroup env src posted).evs := by
  intro h
  exact processGroup_evs env src posted (Ev.group n) h

theorem processList_group_mem (env : Env) :
    ∀ (sources : List Source) (posted : Finset String) (found : Bool),
      ∀ s ∈ sources, Ev.group s.name ∈ (processList env sources posted found).2.1 := by
  intro sources
  induction sources with
  | nil => intro posted found s hs; simp at hs
  | cons s0 rest ih =>
    intro posted found s hs
    simp only [processList, List.cons_append, List.mem_cons, List.mem_append]
    rcases List.mem_cons.mp hs with rfl | hs
    · exact Or.inl rfl
    · exact Or.inr (Or.inr (ih _ _ s hs))

theorem processList_save_not_mem (env : Env) :
    ∀ (sources : List Source) (posted : Finset String) (found : Bool),
      Ev.save ∉ (processList env sources posted found).2.1 := by
  intro sources
  induction sources with
  | nil => intro posted found h; simp [processList] at h
  | cons s0 rest ih =>
    intro posted found h
    simp only [processList, List.cons_append, List.mem_cons, List.mem_append] at h
    rcases h with h | h | h
    · cases h
    · exact processGroup_save_not_mem env s0 posted h
    · exact ih _ _ h

theorem processEntries_commit (env : Env) (src : Source) (e : Entry)
    (rest : List Entry) (posted : Finset String) {ttl t m : String}
    (h1 : e.link ∉ posted) (h2 : e.title = some ttl)
    (h3 : fullTextOf env src.srcType e = some t)
    (h4 : (analyze env src e t).2.2 = some m) :
    (processEntries env src (e :: rest) posted).posted = insert e.link posted ∧
    (processEntries env src (e :: rest) posted).found = true := by
  simp only [processEntries, if_neg h1, h2, h3, h4]
  exact ⟨trivial, trivial⟩

theorem processEntries_skip_noText (env : Env) (src : Source) (e : Entry)
    (rest : List Entry) (posted : Finset String) {ttl : String}
    (h1 : e.link ∉ posted) (h2 : e.title = some ttl)
    (h3 : fullTextOf env src.srcType e = none) :
    processEntries env src (e :: rest) posted =
      ⟨(processEntries env src rest posted).posted,
        Ev.consider e.link :: (processEntries env src rest posted).evs,
        (processEntries env src rest posted).found,
        (processEntries env src rest posted).threw⟩ := by
  simp only [processEntries, if_neg h1, h2, h3]

theorem mainEntry_none_iff (env : Env) (sources : List Source) :
    mainEntry env sources = none ↔
      pyTruthyOptStr env.creds.gemini_api_key = false := by
  unfold mainEntry
  cases hk : pyTruthyOptStr env.creds.gemini_api_key <;>
    simp [AI_PROVIDER, hk]

end Main3

namespace Main5

theorem collectNew_not_posted (env : Env) (posted : Finset String)
    (urls : List String) :
    ∀ e ∈ collectNew env posted urls, e.link ∉ posted := by
  intro e he
  unfold collectNew at he
  rcases List.mem_flatMap.mp he with ⟨u, _, he2⟩
  cases hf : env.feed u with
  | error s => rw [hf] at he2; simp at he2
  | ok ents =>
    rw [hf] at he2
    simpa using (List.mem_filter.mp he2).2

theorem mem_collectNew (env : Env) (posted : Finset String)
    {urls : List String} {u : String} {ents : List Main3.Entry}
    {e : Main3.Entry} (hu : u ∈ urls) (hf : env.feed u = .ok ents)
    (he : e ∈ ents) (hp : e.link ∉ posted) :
    e ∈ collectNew env posted urls := by
  unfold collectNew
  refine List.mem_flatMap.mpr ⟨u, hu, ?_⟩
  rw [hf]
  exact List.mem_filter.mpr ⟨he, by simpa using hp⟩

theorem collectNew_origin (env : Env) (posted : Finset String)
    (urls : List String) :
    ∀ e ∈ collectNew env posted urls,
      ∃ u ∈ urls, ∃ ents, env.feed u = .ok ents ∧ e ∈ ents := by
  intro e he
  unfold collectNew at he
  rcases List.mem_flatMap.mp he with ⟨u, hu, he2⟩
  cases hf : env.feed u with
  | error s => rw [hf] at he2; simp at he2
  | ok ents =>
    rw [hf] at he2
    exact ⟨u, hu, ents, hf, (List.mem_filter.mp he2).1⟩

theorem pickAndProcess_commit (env : Env) (src : Source) (p0 : Main3.Entry)
    (tl : List Main3.Entry) (posted : Finset String) {ttl t m : String}
    (h2 : ((p0 :: tl).getD (env.pick % (p0 :: tl).length) p0).title = some ttl)
    (h3 : fullTextOf env src ((p0 :: tl).getD (env.pick % (p0 :: tl).length) p0)
      = some t)
    (h4 : (analyze env src
      ((p0 :: tl).getD (env.pick % (p0 :: tl).length) p0) t).2.2 = some m) :
    (pickAndProcess env src (p0 :: tl) posted).posted =
      insert ((p0 :: tl).getD (env.pick % (p0 :: tl).length) p0).link posted := by
  simp only [pickAndProcess, h2, h3, h4]

theorem collectNew_count (env : Env) (posted : Finset String)
    (urls : List String) (x : String) :
    ((collectNew env posted urls).map (·.link)).count x =
      (urls.map (fun u =>
        match env.feed u with
        | .error _ => 0
        | .ok ents =>
          ((ents.filter (fun e => e.link ∉ posted)).map (·.link)).count x)).sum := by
  induction urls with
  | nil => simp [collectNew]
  | cons u rest ih =>
    have hstep : collectNew env posted (u :: rest) =
        (match env.feed u with
          | .error _ => []
          | .ok ents => ents.filter (fun e => e.link ∉ posted)) ++
          collectNew env posted rest := by
      simp [collectNew]
    rw [hstep, List.map_append, List.count_append, ih]
    cases hfu : env.feed u <;> simp [hfu]

theorem pickAndProcess_evs (env : Env) (src : Source)
    (pool : List Main3.Entry) (posted : Finset String)
    (hp : ∀ e ∈ pool, e.link ∉ posted) :
    ∀ ev ∈ (pickAndProcess env src pool posted).evs,
      stepEv (fun id => id ∉ posted) ev := by
  intro ev h
  cases pool with
  | nil => simp [pickAndProcess] at h
  | cons p0 tl =>
    have hmem : (p0 :: tl).getD (env.pick % (p0 :: tl).length) p0 ∈ p0 :: tl :=
      getD_mod_mem _ _ _ (List.cons_ne_nil _ _)
    have hnp := hp _ hmem
    simp only [pickAndProcess] at h
    split at h
    · rw [List.mem_singleton] at h; subst h; exact hnp
    · split at h
      · rw [List.mem_singleton] at h; subst h; exact hnp
      · split at h
        · simp only [List.cons_append, List.mem_cons, List.mem_append] at h
          rcases h with rfl | h | h
          · exact hnp
          · exact stepEv_aiIte ev h
          · exact stepEv_send_to_telegram ev h
        · simp only [List.mem_cons] at h
          rcases h with rfl | h
          · exact hnp
          · exact stepEv_aiIte ev h

theorem processGroup_stepEv (env : Env) (src : Source) (posted : Finset String) :
    ∀ ev ∈ (processGroup env src posted).evs,
      stepEv (fun id => id ∉ posted) ev :=
  pickAndProcess_evs env src _ posted (collectNew_not_posted env posted src.urls)

theorem pickAndProcess_no_throw (env : Env) (src : Source)
    (pool : List Main3.Entry) (posted : Finset String)
    (ht : ∀ e ∈ pool, e.title.isSome = true) :
    (pickAndProcess env src pool posted).threw = false := by
  cases pool with
  | nil => rfl
  | cons p0 tl =>
    have hmem : (p0 :: tl).getD (env.pick % (p0 :: tl).length) p0 ∈ p0 :: tl :=
      getD_mod_mem _ _ _ (List.cons_ne_nil _ _)
    have hsome := ht _ hmem
    simp only [pickAndProcess]
    split
    · rename_i hnone
      rw [hnone] at hsome
      simp at hsome
    · split
      · rfl
      · split <;> rfl

theorem processGroup_no_throw (env : Env) (src : Source) (posted : Finset String)
    (htitle : ∀ u ents, env.feed u = .ok ents → ∀ e ∈ ents, e.title.isSome = true) :
    (processGroup env src posted).threw = false := by
  refine pickAndProcess_no_throw env src _ posted ?_
  intro e he
  obtain ⟨u, _, ents, hf, hents⟩ := collectNew_origin env posted src.urls e he
  exact htitle u ents hf e hents

theorem processList_all (env : Env)
    (htitle : ∀ u ents, env.feed u = .ok ents → ∀ e ∈ ents, e.title.isSome = true) :
    ∀ (sources : List Source) (posted : Finset String) (found : Bool),
      (processList env sources posted found).2.2.2 = false ∧
      ∀ s ∈ sources, Ev.group s.name ∈ (processList env sources posted found).2.1 := by
  intro sources
  induction sources with
  | nil =>
    intro posted found
    exact ⟨rfl, by intro s hs; simp at hs⟩
  | cons s0 rest ih =>
    intro posted found
    have hthrew := processGroup_no_throw env s0 posted htitle
    simp only [processList, hthrew, Bool.false_eq_true, if_false,
      List.cons_append, List.mem_cons, List.mem_append]
    refine ⟨(ih _ _).1, ?_⟩
    intro s hs
    rcases hs with rfl | hs
    · exact Or.inl rfl
    · exact Or.inr (Or.inr ((ih (processGroup env s0 posted).posted
        (found || (processGroup env s0 posted).found)).2 s hs))

end Main5

namespace Pods

theorem mem_dedupByUrl {l : List PBEpisode} {x : PBEpisode}
    (hx : x ∈ dedupByUrl l) : x ∈ l := by
  unfold dedupByUrl at hx
  rcases List.mem_filterMap.mp hx with ⟨u, _, hfind⟩
  exact List.mem_reverse.mp (List.mem_of_find?_eq_some hfind)

theorem mem_pbPool_not_posted {pages : List (List PBEpisode)}
    {posted : Finset String} :
    ∀ ep ∈ pbPool pages posted, ep.url ∉ posted := by
  intro ep hep
  have h := mem_dedupByUrl hep
  rcases List.mem_flatMap.mp h with ⟨page, _, hmem⟩
  simpa using (List.mem_filter.mp hmem).2

theorem mem_multiPool_not_posted {feeds : List (List Episode)}
    {posted : Finset String} :
    ∀ ep ∈ multiPool feeds posted, episodeUid ep ∉ posted := by
  intro ep hep
  rcases List.mem_flatMap.mp hep with ⟨f, _, hmem⟩
  simpa using (List.mem_filter.mp hmem).2

theorem mem_firstDedup {l : List String} {u : String} :
    u ∈ firstDedup l ↔ u ∈ l := by
  induction l with
  | nil => simp [firstDedup]
  | cons x xs ih =>
    simp only [firstDedup, List.mem_cons, List.mem_filter]
    constructor
    · rintro (rfl | ⟨h, _⟩)
      · exact Or.inl rfl
      · exact Or.inr (ih.mp h)
    · rintro (rfl | h)
      · exact Or.inl rfl
      · by_cases hx : u = x
        · exact Or.inl hx
        · exact Or.inr ⟨ih.mpr h, by simpa using hx⟩

theorem firstDedup_nodup : ∀ l : List String, (firstDedup l).Nodup := by
  intro l
  induction l with
  | nil => exact List.nodup_nil
  | cons x xs ih =>
    refine List.nodup_cons.mpr ⟨?_, ?_⟩
    · intro hx
      have := (List.mem_filter.mp hx).2
      simp at this
    · exact ih.filter _

theorem map_url_filterMap_find? (l : List PBEpisode) :
    ∀ keys : List String, (∀ u ∈ keys, u ∈ l.map (·.url)) →
      ((keys.filterMap
        (fun u => l.reverse.find? (fun ep => ep.url = u))).map (·.url)) = keys := by
  intro keys
  induction keys with
  | nil => intro _; simp
  | cons u ks ih =>
    intro hk
    have hu : u ∈ l.map (·.url) := hk u (List.mem_cons_self u ks)
    obtain ⟨ep, hep, hurl⟩ := List.mem_map.mp hu
    have hsome : (l.reverse.find? (fun ep => ep.url = u)).isSome = true := by
      rw [List.find?_isSome]
      exact ⟨ep, List.mem_reverse.mpr hep, by simpa using hurl⟩
    obtain ⟨a, ha⟩ := Option.isSome_iff_exists.mp hsome
    have haurl : a.url = u := by simpa using List.find?_some ha
    simp only [List.filterMap_cons, ha, List.map_cons, haurl]
    rw [ih (fun v hv => hk v (List.mem_cons_of_mem _ hv))]

theorem dedupByUrl_map_url (l : List PBEpisode) :
    (dedupByUrl l).map (·.url) = firstDedup (l.map (·.url)) := by
  unfold dedupByUrl
  exact map_url_filterMap_find? l _ (fun u hu => mem_firstDedup.mp hu)

theorem pbPool_nodup_urls (pages : List (List PBEpisode))
    (posted : Finset String) : ((pbPool pages posted).map (·.url)).Nodup := by
  unfold pbPool
  rw [dedupByUrl_map_url]
  exact firstDedup_nodup _

theorem runPBsel_ok (env : Env) (g : Group) (pool : List PBEpisode) :
    BOk g (runPBsel env g pool) := by
  cases pool with
  | nil => intro h; simp [runPBsel] at h
  | cons u0 tl =>
    simp only [BOk, runPBsel]
    split
    · intro h; simp at h
    · split
      · intro h; simp at h
      · intro h; exact ⟨rfl, send_simple_fst h⟩

theorem runPBsel_evs (env : Env) (g : Group) (posted : Finset String)
    (pool : List PBEpisode) (hp : ∀ ep ∈ pool, ep.url ∉ posted) :
    ∀ ev ∈ (runPBsel env g pool).evs, stepEv (fun id => id ∉ posted) ev := by
  intro ev h
  cases pool with
  | nil => simp [runPBsel] at h
  | cons u0 tl =>
    have hnp := hp _ (getD_mod_mem (u0 :: tl) g.pick u0 (List.cons_ne_nil _ _))
    simp only [runPBsel] at h
    split at h
    · rw [List.mem_singleton] at h; subst h; exact hnp
    · split at h
      · simp only [List.mem_cons] at h
        rcases h with rfl | h
        · exact hnp
        · exact stepEv_aiIte ev h
      · simp only [List.cons_append, List.mem_cons, List.mem_append] at h
        rcases h with rfl | h | h
        · exact hnp
        · exact stepEv_aiIte ev h
        · exact stepEv_send_simple ev h

theorem runPT_ok (env : Env) (g : Group) (posted : Finset String) :
    BOk g (runPT env g posted) := by
  simp only [BOk, runPT]
  split
  · intro h; simp at h
  · split
    · intro h; simp at h
    · split
      · intro h; simp at h
      · split
        · intro h; simp at h
        · intro h; exact ⟨rfl, send_simple_fst h⟩

theorem runPT_evs (env : Env) (g : Group) (posted : Finset String) :
    ∀ ev ∈ (runPT env g posted).evs, stepEv (fun id => id ∉ posted) ev := by
  intro ev h
  simp only [runPT] at h
  split at h
  · simp at h
  · rename_i url
    split at h
    · simp at h
    · rename_i hnp
      split at h
      · rw [List.mem_singleton] at h; subst h; exact hnp
      · split at h
        · simp only [List.mem_cons] at h
          rcases h with rfl | h
          · exact hnp
          · exact stepEv_aiIte ev h
        · simp only [List.cons_append, List.mem_cons, List.mem_append] at h
          rcases h with rfl | h | h
          · exact hnp
          · exact stepEv_aiIte ev h
          · exact stepEv_send_simple ev h

theorem runMultiSel_ok (env : Env) (g : Group) (pool : List Episode) :
    BOk g (runMultiSel env g pool) := by
  cases pool with
  | nil => intro h; simp [runMultiSel] at h
  | cons p0 tl =>
    simp only [BOk, runMultiSel]
    split
    · intro h; simp at h
    · split
      · intro h; simp at h
      · split
        · intro h; simp at h
        · intro h; exact ⟨rfl, send_simple_fst h⟩

theorem runMultiSel_evs (env : Env) (g : Group) (posted : Finset String)
    (pool : List Episode) (hp : ∀ ep ∈ pool, episodeUid ep ∉ posted) :
    ∀ ev ∈ (runMultiSel env g pool).evs, stepEv (fun id => id ∉ posted) ev := by
  intro ev h
  cases pool with
  | nil => simp [runMultiSel] at h
  | cons p0 tl =>
    have hnp := hp _ (getD_mod_mem (p0 :: tl) g.pick p0 (List.cons_ne_nil _ _))
    simp only [runMultiSel] at h
    split at h
    · rw [List.mem_singleton] at h; subst h; exact hnp
    · split at h
      · rw [List.mem_singleton] at h; subst h; exact hnp
      · split at h
        · simp only [List.mem_cons] at h
          rcases h with rfl | h
          · exact hnp
          · exact stepEv_aiIte ev h
        · simp only [List.cons_append, List.mem_cons, List.mem_append] at h
          rcases h with rfl | h | h
          · exact hnp
          · exact stepEv_aiIte ev h
          · exact stepEv_send_simple ev h

theorem runPodscribe_ok (env : Env) (g : Group) (posted : Finset String) :
    BOk g (runPodscribe env g posted) := by
  simp only [BOk, runPodscribe]
  split
  · intro h; simp at h
  · split
    · intro h; simp at h
    · split
      · split
        · intro h; simp at h
        · intro h; simp at h
      · split
        · intro h; simp at h
        · split
          · intro h; exact ⟨rfl, send_simple_fst h⟩
          · intro h; simp at h

theorem runPodscribe_evs (env : Env) (g : Group) (posted : Finset String) :
    ∀ ev ∈ (runPodscribe env g posted).evs, stepEv (fun id => id ∉ posted) ev := by
  intro ev h
  simp only [runPodscribe] at h
  split at h
  · simp at h
  · split at h
    · simp at h
    · split at h
      · split at h
        · simp at h
        · simp at h
      · rename_i hnp
        split at h
        · rw [List.mem_singleton] at h; subst h; exact hnp
        · split at h
          · simp only [List.cons_append, List.mem_cons, List.mem_append] at h
            rcases h with rfl | h | h
            · exact hnp
            · exact stepEv_aiIte ev h
            · exact stepEv_send_simple ev h
          · simp only [List.mem_cons] at h
            rcases h with rfl | h
            · exact hnp
            · exact stepEv_aiIte ev h

theorem runLex_ok (env : Env) (g : Group) (posted : Finset String) :
    BOk g (runLex env g posted) := by
  simp only [BOk, runLex]
  split
  · intro h; simp at h
  · split
    · intro h; simp at h
    · split
      · split
        · intro h; simp at h
        · intro h; simp at h
      · split
        · intro h; simp at h
        · split
          · intro h; simp at h
          · split
            · split
              · intro h; simp at h
              · intro h; exact ⟨rfl, send_podcast_fst h⟩
            · intro h; simp at h

theorem runLex_evs (env : Env) (g : Group) (posted : Finset String) :
    ∀ ev ∈ (runLex env g posted).evs, stepEv (fun id => id ∉ posted) ev := by
  intro ev h
  simp only [runLex] at h
  split at h
  · simp at h
  · split at h
    · simp at h
    · split at h
      · split at h
        · simp at h
        · simp at h
      · rename_i hnp
        split at h
        · rw [List.mem_singleton] at h; subst h; exact hnp
        · split at h
          · rw [List.mem_singleton] at h; subst h; exact hnp
          · split at h
            · split at h
              · simp only [List.mem_cons] at h
                rcases h with rfl | h
                · exact hnp
                · exact stepEv_aiIte ev h
              · simp only [List.cons_append, List.mem_cons, List.mem_append] at h
                rcases h with rfl | h | h
                · exact hnp
                · exact stepEv_aiIte ev h
                · exact stepEv_send_podcast ev h
            · rw [List.mem_singleton] at h; subst h; exact hnp

theorem branch_ok (env : Env) (g : Group) (posted : Finset String) :
    BOk g (branch env g posted) := by
  unfold branch
  split
  · exact runPBsel_ok env g _
  · split
    · exact runPT_ok env g posted
    · split
      · exact runMultiSel_ok env g _
      · split
        · exact runPodscribe_ok env g posted
        · split
          · exact runLex_ok env g posted
          · intro h; simp at h

theorem branch_evs (env : Env) (g : Group) (posted : Finset String) :
    ∀ ev ∈ (branch env g posted).evs, stepEv (fun id => id ∉ posted) ev := by
  unfold branch
  split
  · exact runPBsel_evs env g posted _ mem_pbPool_not_posted
  · split
    · exact runPT_evs env g posted
    · split
      · exact runMultiSel_evs env g posted _ mem_multiPool_not_posted
      · split
        · exact runPodscribe_evs env g posted
        · split
          · exact runLex_evs env g posted
          · intro ev h; simp at h

theorem commit_not_success {posted : Finset String} {b : BOut}
    (h : b.success = false) :
    commit posted b = ⟨posted, b.evs, false, none, b.threw⟩ := by
  simp [commit, h]

theorem branch_not_success_of_sendFalse (env : Env) (g : Group)
    (posted : Finset String) (h : g.sendOutcome = false) :
    (branch env g posted).success = false := by
  cases hsucc : (branch env g posted).success
  · rfl
  · have := (branch_ok env g posted hsucc).2
    rw [h] at this
    exact absurd this (by simp)

theorem processGroup_sendFalse (env : Env) (g : Group)
    (h : g.sendOutcome = false) :
    (processGroup env g).posted = load_posted_links g.histFile ∧
    (processGroup env g).saved = none ∧
    (processGroup env g).success = false := by
  have hs := branch_not_success_of_sendFalse env g (load_posted_links g.histFile) h
  unfold processGroup
  rw [commit_not_success hs]
  exact ⟨rfl, rfl, rfl⟩

theorem processGroup_success_shape (env : Env) (g : Group)
    (h : (processGroup env g).success = true) :
    ∃ u, (processGroup env g).posted =
        insert u (load_posted_links g.histFile) ∧
      (processGroup env g).evs =
        (branch env g (load_posted_links g.histFile)).evs ++ [Ev.save] ∧
      (processGroup env g).saved =
        some (save_posted_links (processGroup env g).posted) := by
  cases hsucc : (branch env g (load_posted_links g.histFile)).success
  · rw [processGroup, commit_not_success hsucc] at h
    exact absurd h (by simp)
  · obtain ⟨hsome, -⟩ := branch_ok env g (load_posted_links g.histFile) hsucc
    obtain ⟨u, hu⟩ := Option.isSome_iff_exists.mp hsome
    refine ⟨u, ?_⟩
    unfold processGroup commit
    rw [hsucc, hu]
    exact ⟨rfl, rfl, rfl⟩

theorem processGroup_evs_shape (env : Env) (g : Group) :
    (processGroup env g).evs =
      (branch env g (load_posted_links g.histFile)).evs ∨
    (processGroup env g).evs =
      (branch env g (load_posted_links g.histFile)).evs ++ [Ev.save] := by
  unfold processGroup commit
  split
  · split
    · exact Or.inr rfl
    · exact Or.inl rfl
  · exact Or.inl rfl

theorem processGroup_consider (env : Env) (g : Group) :
    ∀ id, Ev.consider id ∈ (processGroup env g).evs →
      id ∉ load_posted_links g.histFile := by
  intro id hid
  have hb : Ev.consider id ∈ (branch env g (load_posted_links g.histFile)).evs := by
    rcases processGroup_evs_shape env g with hsh | hsh
    · rwa [hsh] at hid
    · rw [hsh, List.mem_append] at hid
      rcases hid with hid | hid
      · exact hid
      · simp at hid
  exact branch_evs env g (load_posted_links g.histFile) _ hb

theorem branch_save_not_mem (env : Env) (g : Group) (posted : Finset String) :
    Ev.save ∉ (branch env g posted).evs := by
  intro h
  exact branch_evs env g posted Ev.save h

theorem runPBsel_noTranscript (env : Env) (g : Group)
    (pool : List PBEpisode)
    (ht : ∀ url, truthy (g.episodePage url).1 = none) :
    (runPBsel env g pool).success = false ∧
    Ev.aiCall ∉ (runPBsel env g pool).evs ∧
    Ev.sendCall ∉ (runPBsel env g pool).evs := by
  cases pool with
  | nil => exact ⟨rfl, by simp [runPBsel], by simp [runPBsel]⟩
  | cons u0 tl =>
    simp only [runPBsel]
    split
    · exact ⟨rfl, by simp, by simp⟩
    · rename_i t heq
      rw [ht _] at heq
      exact absurd heq (by simp)

theorem branch_eq_pb (env : Env) (g : Group) (posted : Finset String)
    (h : g.scraper_type = "philosophybites_web") :
    branch env g posted = runPBsel env g (pbPool g.indexPages posted) := by
  unfold branch runPB
  rw [h]
  simp

theorem branch_eq_podscribe (env : Env) (g : Group) (posted : Finset String)
    (h : g.scraper_type = "podscribe_rss") :
    branch env g posted = runPodscribe env g posted := by
  unfold branch
  rw [h]
  simp

theorem runEvents_group_mem (env : Env) (groups : List Group) :
    ∀ g ∈ groups, Ev.group g.name ∈ runEvents env groups := by
  intro g hg
  unfold runEvents
  exact List.mem_flatMap.mpr ⟨g, hg, List.mem_cons_self _ _⟩

theorem runPodscribe_posted_head (env : Env) (g : Group)
    (posted : Finset String) (e : Episode) (tl : List Episode)
    (fs : List (List Episode)) (hf : g.feeds = (e :: tl) :: fs)
    (hmem : episodeUid e ∈ posted) :
    (runPodscribe env g posted).success = false ∧
    (runPodscribe env g posted).evs = [] := by
  simp only [runPodscribe, hf, List.head?_cons]
  rw [if_pos hmem]
  split
  · exact ⟨rfl, rfl⟩
  · exact ⟨rfl, rfl⟩

theorem multiPool_count (feeds : List (List Episode)) (posted : Finset String)
    (x : String) :
    ((multiPool feeds posted).map episodeUid).count x =
      (feeds.map (fun f =>
        ((f.filter (fun ep => episodeUid ep ∉ posted)).map episodeUid).count x)).sum := by
  induction feeds with
  | nil => simp [multiPool]
  | cons f rest ih =>
    have hstep : multiPool (f :: rest) posted =
        f.filter (fun ep => episodeUid ep ∉ posted) ++ multiPool rest posted := by
      simp [multiPool]
    rw [hstep, List.map_append, List.count_append, ih, List.map_cons, List.sum_cons]

end Pods

/-! ## Claims -/

/-- C10: each AI entry point returns `None` without invoking the provider
whenever its input text is null or shorter than its fixed minimum — 500 for
transcript-based podcast analysis, 100 for RSS-description podcast analysis
and for paper analysis, 50 for news analysis. -/
theorem C10_theorem :
    (∀ (provider : String → Option AiData) (t : Option String),
      (t = none ∨ ∃ s, t = some s ∧ s.length < 500) →
      get_ai_podcast_analysis provider t = (none, false)) ∧
    (∀ (provider : String → Option AiData) (title : String) (t : Option String),
      (t = none ∨ ∃ s, t = some s ∧ s.length < 100) →
      get_ai_rss_podcast_analysis provider title t = (none, false)) ∧
    (∀ (provider : String → Option AiData) (t : Option String),
      (t = none ∨ ∃ s, t = some s ∧ s.length < 100) →
      get_ai_paper_analysis provider t = (none, false)) ∧
    (∀ (provider : String → Option AiData) (t : Option String),
      (t = none ∨ ∃ s, t = some s ∧ s.length < 50) →
      get_ai_news_analysis provider t = (none, false)) := by
  refine ⟨?_, ?_, ?_, ?_⟩
  · rintro provider t (rfl | ⟨s, rfl, hs⟩)
    · rfl
    · simp [get_ai_podcast_analysis, hs]
  · rintro provider title t (rfl | ⟨s, rfl, hs⟩)
    · rfl
    · simp [get_ai_rss_podcast_analysis, hs]
  · rintro provider t (rfl | ⟨s, rfl, hs⟩)
    · rfl
    · simp [get_ai_paper_analysis, hs]
  · rintro provider t (rfl | ⟨s, rfl, hs⟩)
    · rfl
    · simp [get_ai_news_analysis, hs]

/-- C10 witness: each entry point evaluated at `None` or a too-short text. -/
theorem C10_witness :
    get_ai_podcast_analysis (fun _ => none) (some "ab") = (none, false) ∧
    get_ai_rss_podcast_analysis (fun _ => none) "T" none = (none, false) ∧
    get_ai_paper_analysis (fun _ => none) (some "ab") = (none, false) ∧
    get_ai_news_analysis (fun _ => none) (some "ab") = (none, false) :=
  ⟨C10_theorem.1 _ _ (Or.inr ⟨"ab", rfl, by decide⟩),
    C10_theorem.2.1 _ "T" _ (Or.inl rfl),
    C10_theorem.2.2.1 _ _ (Or.inr ⟨"ab", rfl, by decide⟩),
    C10_theorem.2.2.2 _ _ (Or.inr ⟨"ab", rfl, by decide⟩)⟩

/-- C2: in every pipeline, an already-posted identifier is never taken up
again: every candidate passing the selection check (`consider` event) has an
identifier absent from the history set current at the start of the group's
processing. -/
theorem C2_theorem :
    (∀ (env : Main3.Env) (src : Main3.Source) (posted : Finset String)
      (id : String),
      Ev.consider id ∈ (Main3.processGroup env src posted).evs → id ∉ posted) ∧
    (∀ (env : Main5.Env) (src : Main5.Source) (posted : Finset String)
      (id : String),
      Ev.consider id ∈ (Main5.processGroup env src posted).evs → id ∉ posted) ∧
    (∀ (env : Pods.Env) (g : Pods.Group) (id : String),
      Ev.consider id ∈ (Pods.processGroup env g).evs →
        id ∉ load_posted_links g.histFile) := by
  refine ⟨?_, ?_, ?_⟩
  · intro env src posted id h
    exact (Main3.processGroup_evs env src posted _ h).2
  · intro env src posted id h
    exact Main5.processGroup_stepEv env src posted _ h
  · intro env g id h
    exact Pods.processGroup_consider env g id h

/-- C2 witness: the considered candidates of two concrete runs are indeed
absent from the corresponding starting history sets. -/
theorem C2_witness :
    "l1" ∉ (∅ : Finset String) ∧
    "u1" ∉ load_posted_links pbG.histFile :=
  ⟨C2_theorem.1 env3A src3A ∅ "l1" (by decide),
    C2_theorem.2.2 podsEnvT pbG "u1" (by decide)⟩

/-- C5 (amended): only the `philosophybites_web` group deduplicates its
unseen pool by identifier; the multi-feed pools of `multi_rss_random` and of
main5 keep every occurrence, so an identifier surfacing via two origins
appears once per occurrence (its selection weight is the occurrence count,
not 1). -/
theorem C5_theorem :
    (∀ (pages : List (List Pods.PBEpisode)) (posted : Finset String),
      ((Pods.pbPool pages posted).map (·.url)).Nodup) ∧
    (∀ (feeds : List (List Pods.Episode)) (posted : Finset String) (x : String),
      ((Pods.multiPool feeds posted).map Pods.episodeUid).count x =
        (feeds.map (fun f =>
          ((f.filter (fun ep => Pods.episodeUid ep ∉ posted)).map
            Pods.episodeUid).count x)).sum) ∧
    (∀ (env : Main5.Env) (posted : Finset String) (urls : List String)
      (x : String),
      ((Main5.collectNew env posted urls).map (·.link)).count x =
        (urls.map (fun u =>
          match env.feed u with
          | .error _ => 0
          | .ok ents =>
            ((ents.filter (fun e => e.link ∉ posted)).map (·.link)).count x)).sum) :=
  ⟨Pods.pbPool_nodup_urls, Pods.multiPool_count, Main5.collectNew_count⟩

/-- C5 counterexample: the same identifier `X` surfacing via two feeds of a
`multi_rss_random` group yields a pool with two entries for `X` — not the
at-most-one entry per identifier the claim states. -/
theorem C5_counterexample :
    (Pods.multiPool [[eX], [eX]] ∅).map Pods.episodeUid = ["X", "X"] ∧
    ¬ ((Pods.multiPool [[eX], [eX]] ∅).map Pods.episodeUid).Nodup := by
  decide

/-- C1 (amended): in the podcast pipeline an identifier is added iff the
publish is confirmed successful — a reported failure leaves the group's set
unchanged, and a success adds exactly the committed identifier.  In the news
pipelines (`main3.py`/`main5.py`) the identifier is added as soon as a
message was formatted, whatever the Publisher reports: `send_to_telegram`
swallows the transport outcome. -/
theorem C1_theorem :
    (∀ (env : Pods.Env) (g : Pods.Group), g.sendOutcome = false →
      (Pods.processGroup env g).posted = load_posted_links g.histFile) ∧
    (∀ (env : Pods.Env) (g : Pods.Group),
      (Pods.processGroup env g).success = true →
      ∃ u, (Pods.processGroup env g).posted =
        insert u (load_posted_links g.histFile)) ∧
    (∀ (env : Main3.Env) (src : Main3.Source) (e : Main3.Entry)
      (rest : List Main3.Entry) (posted : Finset String),
      env.publishOutcome = false → e.link ∉ posted →
      e.title.isSome = true →
      ∀ t, Main3.fullTextOf env src.srcType e = some t →
      (Main3.analyze env src e t).2.2.isSome = true →
      (Main3.processEntries env src (e :: rest) posted).posted =
        insert e.link posted) ∧
    (∀ (env : Main5.Env) (src : Main5.Source) (p0 : Main3.Entry)
      (tl : List Main3.Entry) (posted : Finset String),
      env.publishOutcome = false →
      ∀ ttl t m,
      ((p0 :: tl).getD (env.pick % (p0 :: tl).length) p0).title = some ttl →
      Main5.fullTextOf env src
        ((p0 :: tl).getD (env.pick % (p0 :: tl).length) p0) = some t →
      (Main5.analyze env src
        ((p0 :: tl).getD (env.pick % (p0 :: tl).length) p0) t).2.2 = some m →
      (Main5.pickAndProcess env src (p0 :: tl) posted).posted =
        insert ((p0 :: tl).getD (env.pick % (p0 :: tl).length) p0).link
          posted) := by
  refine ⟨?_, ?_, ?_, ?_⟩
  · intro env g h
    exact (Pods.processGroup_sendFalse env g h).1
  · intro env g h
    obtain ⟨u, hu, -, -⟩ := Pods.processGroup_success_shape env g h
    exact ⟨u, hu⟩
  · intro env src e rest posted _ h1 h2 t h3 h4
    obtain ⟨ttl, httl⟩ := Option.isSome_iff_exists.mp h2
    obtain ⟨m, hm⟩ := Option.isSome_iff_exists.mp h4
    exact (Main3.processEntries_commit env src e rest posted h1 httl h3 hm).1
  · intro env src p0 tl posted _ ttl t m h2 h3 h4
    exact Main5.pickAndProcess_commit env src p0 tl posted h2 h3 h4

/-- C1 counterexample: in the concrete main3 run the transport reports
failure (`publish false` is in the trace), yet the group's identifier set
gains `l2` — before ≠ after, refuting commit-only-on-confirmed-success. -/
theorem C1_counterexample :
    env3A.publishOutcome = false ∧
    Ev.publish false ∈ (Main3.process_feeds env3A [src3A]).evs ∧
    load_posted_links env3A.histFile = ∅ ∧
    (Main3.process_feeds env3A [src3A]).posted = {"l2"} := by
  decide

/-- C1 witness: the Pods part at a concrete failing-publish group, and the
main3 part at a concrete entry with the transport failing. -/
theorem C1_witness :
    (Pods.processGroup podsEnvT pbGF).posted = load_posted_links pbGF.histFile ∧
    (Main3.processEntries env3A src3A [⟨"l2", some "t2", none⟩] ∅).posted =
      insert "l2" ∅ :=
  ⟨C1_theorem.1 podsEnvT pbGF rfl,
    C1_theorem.2.2.1 env3A src3A ⟨"l2", some "t2", none⟩ [] ∅ rfl (by decide)
      (by decide) longText (by decide) (by decide)⟩

/-- C3 (amended): when extraction yields no usable text, the failing
candidate itself triggers no AI call, no send and no history change — in
the podcast pipeline the whole group is abandoned for the run, but in
main3's entry walk processing continues with the next unseen candidate of
the same group in the same run. -/
theorem C3_theorem :
    (∀ (env : Pods.Env) (g : Pods.Group),
      g.scraper_type = "philosophybites_web" →
      (∀ url, Pods.truthy (g.episodePage url).1 = none) →
      (Pods.processGroup env g).posted = load_posted_links g.histFile ∧
      (Pods.processGroup env g).saved = none ∧
      Ev.aiCall ∉ (Pods.processGroup env g).evs ∧
      Ev.sendCall ∉ (Pods.processGroup env g).evs) ∧
    (∀ (env : Main3.Env) (src : Main3.Source) (e : Main3.Entry)
      (rest : List Main3.Entry) (posted : Finset String) (ttl : String),
      e.link ∉ posted → e.title = some ttl →
      Main3.fullTextOf env src.srcType e = none →
      Main3.processEntries env src (e :: rest) posted =
        ⟨(Main3.processEntries env src rest posted).posted,
          Ev.consider e.link :: (Main3.processEntries env src rest posted).evs,
          (Main3.processEntries env src rest posted).found,
          (Main3.processEntries env src rest posted).threw⟩) := by
  constructor
  · intro env g htype ht
    have hb := Pods.branch_eq_pb env g (load_posted_links g.histFile) htype
    obtain ⟨hsucc, hai, hsend⟩ :=
      Pods.runPBsel_noTranscript env g
        (Pods.pbPool g.indexPages (load_posted_links g.histFile)) ht
    have hs : (Pods.branch env g (load_posted_links g.histFile)).success = false := by
      rw [hb]; exact hsucc
    have hcommit := @Pods.commit_not_success (load_posted_links g.histFile) _ hs
    unfold Pods.processGroup
    rw [hcommit]
    refine ⟨rfl, rfl, ?_, ?_⟩
    · show Ev.aiCall ∉ (Pods.branch env g (load_posted_links g.histFile)).evs
      rw [hb]; exact hai
    · show Ev.sendCall ∉ (Pods.branch env g (load_posted_links g.histFile)).evs
      rw [hb]; exact hsend
  · intro env src e rest posted ttl h1 h2 h3
    exact Main3.processEntries_skip_noText env src e rest posted h1 h2 h3

/-- C3 counterexample: in the concrete main3 run, extraction of the first
considered candidate `l1` yields no text, yet the run does not abandon the
group — the next candidate `l2` is considered, the AI provider is invoked, a
send is attempted and the history changes. -/
theorem C3_counterexample :
    Main3.fullTextOf env3A "sciencedaily" ⟨"l1", some "t1", none⟩ = none ∧
    (Main3.process_feeds env3A [src3A]).evs =
      [Ev.group "S", Ev.consider "l1", Ev.consider "l2", Ev.aiCall,
        Ev.sendCall, Ev.publish false, Ev.save] ∧
    (Main3.process_feeds env3A [src3A]).posted = {"l2"} := by
  decide

/-- C3 witness: the Pods part at a concrete transcript-less group; the
main3 part at a concrete no-text entry. -/
theorem C3_witness :
    (Pods.processGroup podsEnvT pbGNoT).posted =
      load_posted_links pbGNoT.histFile ∧
    Main3.processEntries env3A src3A [⟨"l1", some "t1", none⟩] ∅ =
      ⟨(Main3.processEntries env3A src3A [] ∅).posted,
        Ev.consider "l1" :: (Main3.processEntries env3A src3A [] ∅).evs,
        (Main3.processEntries env3A src3A [] ∅).found,
        (Main3.processEntries env3A src3A [] ∅).threw⟩ :=
  ⟨(C3_theorem.1 podsEnvT pbGNoT rfl (fun _ => rfl)).1,
    C3_theorem.2 env3A src3A ⟨"l1", some "t1", none⟩ [] ∅ "t1" (by decide)
      rfl (by decide)⟩

/-- C4 (amended): the podcast pipeline persists immediately — a successful
group's trace ends with the `save`, written before any later group runs;
the news pipelines instead update only the in-memory set per group and
persist once, at the very end of the run (`main3.py` lines 544-545). -/
theorem C4_theorem :
    (∀ (env : Pods.Env) (g : Pods.Group),
      (Pods.processGroup env g).success = true →
      (Pods.processGroup env g).evs =
        (Pods.branch env g (load_posted_links g.histFile)).evs ++ [Ev.save] ∧
      Ev.save ∉ (Pods.branch env g (load_posted_links g.histFile)).evs ∧
      (Pods.processGroup env g).saved =
        some (save_posted_links (Pods.processGroup env g).posted)) ∧
    (∀ (env : Main3.Env) (sources : List Main3.Source),
      Ev.save ∉ (Main3.processList env sources
        (load_posted_links env.histFile) false).2.1 ∧
      ((Main3.process_feeds env sources).evs =
          (Main3.processList env sources
            (load_posted_links env.histFile) false).2.1 ∨
        (Main3.process_feeds env sources).evs =
          (Main3.processList env sources
            (load_posted_links env.histFile) false).2.1 ++ [Ev.save])) := by
  constructor
  · intro env g h
    obtain ⟨u, -, hevs, hsaved⟩ := Pods.processGroup_success_shape env g h
    exact ⟨hevs, Pods.branch_save_not_mem env g _, hsaved⟩
  · intro env sources
    refine ⟨Main3.processList_save_not_mem env sources _ false, ?_⟩
    unfold Main3.process_feeds
    rcases hP : Main3.processList env sources
      (load_posted_links env.histFile) false with ⟨p, evs, f⟩
    cases f
    · simp [hP]
    · simp [hP]

/-- C4 counterexample: a concrete main3 run where two groups both publish
successfully; the second group's processing begins (its `group` marker is in
the trace) with no `save` in between — the only `save` is the single one at
the very end of the run. -/
theorem C4_counterexample :
    (Main3.process_feeds env3B [src3B1, src3B2]).evs =
      [Ev.group "S1", Ev.consider "a", Ev.aiCall, Ev.sendCall,
        Ev.publish true, Ev.group "S2", Ev.consider "b", Ev.aiCall,
        Ev.sendCall, Ev.publish true, Ev.save] ∧
    (Main3.process_feeds env3B [src3B1, src3B2]).posted = {"a", "b"} := by
  decide

/-- C4 witness: the Pods part at a concrete successful group. -/
theorem C4_witness :
    (Pods.processGroup podsEnvT pbG).evs =
      (Pods.branch podsEnvT pbG (load_posted_links pbG.histFile)).evs ++
        [Ev.save] ∧
    Ev.save ∉ (Pods.branch podsEnvT pbG (load_posted_links pbG.histFile)).evs ∧
    (Pods.processGroup podsEnvT pbG).saved =
      some (save_posted_links (Pods.processGroup podsEnvT pbG).posted) :=
  C4_theorem.1 podsEnvT pbG (by decide)

/-- C6 (amended): discovery is not exhaustive in every pipeline.  main3
considers only the first 20 feed entries (any candidate it takes up comes
from `feed.entries[:20]`); a `podscribe_rss` group looks only at the most
recent entry — when that one is already posted the group changes nothing and
emits no event, regardless of older unseen episodes; main5's aggregation, in
contrast, does include every unseen entry of every successfully fetched
feed. -/
theorem C6_theorem :
    (∀ (env : Main3.Env) (src : Main3.Source) (posted : Finset String)
      (id : String), (∀ l, List.Perm (env.shuffleEntries l) l) →
      Ev.consider id ∈ (Main3.processGroup env src posted).evs →
      id ∈ ((env.feed src.url).take 20).map (·.link)) ∧
    (∀ (env : Pods.Env) (g : Pods.Group) (e : Pods.Episode)
      (tl : List Pods.Episode) (fs : List (List Pods.Episode)),
      g.scraper_type = "podscribe_rss" → g.feeds = (e :: tl) :: fs →
      Pods.episodeUid e ∈ load_posted_links g.histFile →
      (Pods.processGroup env g).posted = load_posted_links g.histFile ∧
      (Pods.processGroup env g).evs = []) ∧
    (∀ (env : Main5.Env) (posted : Finset String) (urls : List String)
      (u : String) (ents : List Main3.Entry) (e : Main3.Entry),
      u ∈ urls → env.feed u = .ok ents → e ∈ ents → e.link ∉ posted →
      e ∈ Main5.collectNew env posted urls) := by
  refine ⟨?_, ?_, ?_⟩
  · intro env src posted id hperm h
    have hs := Main3.processGroup_evs env src posted (Ev.consider id) h
    exact (((hperm _).map (·.link)).mem_iff).mp hs.1
  · intro env g e tl fs htype hf hmem
    have hb := Pods.branch_eq_podscribe env g (load_posted_links g.histFile) htype
    obtain ⟨hsucc, hevs⟩ :=
      Pods.runPodscribe_posted_head env g (load_posted_links g.histFile)
        e tl fs hf hmem
    have hs : (Pods.branch env g (load_posted_links g.histFile)).success = false := by
      rw [hb]; exact hsucc
    unfold Pods.processGroup
    rw [Pods.commit_not_success hs]
    refine ⟨rfl, ?_⟩
    show (Pods.branch env g (load_posted_links g.histFile)).evs = []
    rw [hb]; exact hevs
  · intro env posted urls u ents e hu hf he hp
    exact Main5.mem_collectNew env posted hu hf he hp

/-- C6 counterexample: a feed with 21 entries whose first 20 are already in
the history; the 21st (`L20`) is unseen and discovered by the adapter, yet
the concrete main3 run takes up no candidate at all and changes nothing —
the fixed `[:20]` cap excludes the unseen candidate from the pool. -/
theorem C6_counterexample :
    "L20" ∈ (env3C.feed "u").map (·.link) ∧
    "L20" ∉ load_posted_links env3C.histFile ∧
    (Main3.process_feeds env3C [src3C]).posted = load_posted_links env3C.histFile ∧
    (Main3.process_feeds env3C [src3C]).evs = [Ev.group "SC"] ∧
    (Main3.process_feeds env3C [src3C]).saved = none := by
  decide

/-- C6 witness: each part at a concrete input — the considered candidate of
a main3 run lies in the first-20 window; an already-posted latest episode
leaves a podscribe group untouched; a concrete unseen entry is collected by
main5's aggregation. -/
theorem C6_witness :
    "l1" ∈ ((env3A.feed src3A.url).take 20).map (·.link) ∧
    ((Pods.processGroup podsEnvT podscribeSeenG).posted =
        load_posted_links podscribeSeenG.histFile ∧
      (Pods.processGroup podsEnvT podscribeSeenG).evs = []) ∧
    (⟨"l2", some "t2", none⟩ : Main3.Entry) ∈
      Main5.collectNew env5B ∅ ["f"] :=
  ⟨C6_theorem.1 env3A src3A ∅ "l1" (fun l => List.Perm.refl l) (by decide),
    C6_theorem.2.1 podsEnvT podscribeSeenG eSeen [] [] rfl rfl (by decide),
    C6_theorem.2.2 env5B ∅ ["f"] "f" [⟨"l2", some "t2", none⟩]
      ⟨"l2", some "t2", none⟩ (by decide) rfl (by decide) (by decide)⟩

/-- C7 (amended): main3 and Pods wrap each group's body in `try/except`, so
every configured group is reached in every run; main5 only guards the
per-origin feed fetch — when no entry lacks a `title` the run visits every
source, but an exception in the post-discovery stage is uncaught (see the
counterexample) and kills the rest of the run. -/
theorem C7_theorem :
    (∀ (env : Main3.Env) (sources : List Main3.Source),
      ∀ s ∈ sources, Ev.group s.name ∈ (Main3.process_feeds env sources).evs) ∧
    (∀ (env : Pods.Env) (groups : List Pods.Group),
      ∀ g ∈ groups, Ev.group g.name ∈ Pods.runEvents env groups) ∧
    (∀ (env : Main5.Env) (sources : List Main5.Source),
      (∀ u ents, env.feed u = .ok ents → ∀ e ∈ ents, e.title.isSome = true) →
      (Main5.process_feeds env sources).aborted = false ∧
      ∀ s ∈ sources, Ev.group s.name ∈ (Main5.process_feeds env sources).evs) := by
  refine ⟨?_, ?_, ?_⟩
  · intro env sources s hs
    have h := Main3.processList_group_mem env sources
      (load_posted_links env.histFile) false s hs
    unfold Main3.process_feeds
    rcases hP : Main3.processList env sources
      (load_posted_links env.histFile) false with ⟨p, evs, f⟩
    rw [hP] at h
    cases f <;> simpa [hP] using h
  · exact Pods.runEvents_group_mem
  · intro env sources htitle
    obtain ⟨hab, hmem⟩ := Main5.processList_all env htitle sources
      (load_posted_links env.histFile) false
    unfold Main5.process_feeds
    rcases hP : Main5.processList env sources
      (load_posted_links env.histFile) false with ⟨p, evs, f, a⟩
    rw [hP] at hab
    simp only at hab
    subst hab
    constructor
    · simp only [hP]
      cases f <;> rfl
    · intro s hs
      have h := hmem s hs
      rw [hP] at h
      cases f <;> simpa [hP] using h

/-- C7 counterexample: in the concrete main5 run the first source's selected
entry lacks a `title`; the resulting exception is not caught — the run
aborts, the second source is never visited and the final history save never
happens. -/
theorem C7_counterexample :
    (Main5.process_feeds env5A [src5A, src5B]).aborted = true ∧
    (Main5.process_feeds env5A [src5A, src5B]).evs =
      [Ev.group "S1", Ev.consider "l1"] ∧
    Ev.group "S2" ∉ (Main5.process_feeds env5A [src5A, src5B]).evs ∧
    (Main5.process_feeds env5A [src5A, src5B]).saved = none := by
  decide

/-- C7 witness: all three parts at concrete runs. -/
theorem C7_witness :
    Ev.group "S" ∈ (Main3.process_feeds env3A [src3A]).evs ∧
    Ev.group "G" ∈ Pods.runEvents podsEnvT [pbG] ∧
    ((Main5.process_feeds env5B [src5B]).aborted = false ∧
      ∀ s ∈ [src5B], Ev.group s.name ∈ (Main5.process_feeds env5B [src5B]).evs) :=
  ⟨C7_theorem.1 env3A [src3A] src3A (List.mem_cons_self _ _),
    C7_theorem.2.1 podsEnvT [pbG] pbG (List.mem_cons_self _ _),
    C7_theorem.2.2 env5B [src5B] (by
      intro u ents hf e he
      have : ents = [⟨"l2", some "t2", none⟩] := by
        simpa [env5B, env5A] using hf.symm
      subst this
      simp only [List.mem_singleton] at he
      subst he
      rfl)⟩

/-- C9 (amended): the only pre-run fatal check is the selected AI provider's
key — `process_feeds` is skipped iff `GEMINI_API_KEY` is falsy under the
configured `gemini` provider.  The messaging token and channel are checked
inside each send, not before the run: their absence turns that send into a
no-op failure while the run (and, in main3, even the history commit)
proceeds. -/
theorem C9_theorem :
    (∀ (env : Main3.Env) (sources : List Main3.Source),
      Main3.mainEntry env sources = none ↔
        pyTruthyOptStr env.creds.gemini_api_key = false) ∧
    (∀ (c : Creds) (o : Bool), credsOk c = false →
      send_to_telegram c o = [Ev.sendCall] ∧
      send_simple_podcast_to_telegram c o = (false, [Ev.sendCall])) := by
  constructor
  · exact Main3.mainEntry_none_iff
  · intro c o h
    exact ⟨send_to_telegram_noCreds h, send_simple_noCreds h⟩

/-- C9 counterexample: with the messaging token absent (and the AI key
present) the concrete main3 run is not aborted — the group is processed, the
AI is called, the send function is entered (and performs no network publish)
and the identifier is even committed to history. -/
theorem C9_counterexample :
    env3D.creds.telegram_token = none ∧
    (Main3.mainEntry env3D [src3A]).isSome = true ∧
    Ev.group "S" ∈ (Main3.process_feeds env3D [src3A]).evs ∧
    Ev.sendCall ∈ (Main3.process_feeds env3D [src3A]).evs ∧
    Ev.publish true ∉ (Main3.process_feeds env3D [src3A]).evs ∧
    Ev.publish false ∉ (Main3.process_feeds env3D [src3A]).evs ∧
    (Main3.process_feeds env3D [src3A]).posted = {"l2"} := by
  decide

/-- C9 witness: the credential-gate applied at a concrete credential-less
send. -/
theorem C9_witness :
    send_to_telegram env3D.creds true = [Ev.sendCall] ∧
    send_simple_podcast_to_telegram env3D.creds true = (false, [Ev.sendCall]) :=
  C9_theorem.2 env3D.creds true (by decide)

end MokhberAi
